import Mathlib

set_option maxRecDepth 8000

/-!
Verification of the EchoStream audio agent (Python sources under src/).

Shallow embedding conventions:
* Python floats carrying audio samples are modelled as rationals (ℚ); all
  arithmetic the claims depend on (scaling, clipping, comparisons,
  truncating conversion to int) is exact at the inputs considered.
* Bytes are `Nat` values < 256; byte strings are `List Nat`.
* Machine int16 conversion is modelled on ℤ with an explicit wrap modulo 2^16.
* The AES-GCM primitive (`cryptography.hazmat` AESGCM) and the Opus codec are
  external libraries, not repository code.  AESGCM is modelled as an abstract
  authenticated cipher with the interface properties crypto.py relies on:
  ciphertext-with-tag is |plaintext| + 16 bytes and decryption recomputes and
  checks the 16-byte tag.  Opus encode/decode are taken as function parameters.
* Worker loops are modelled as step functions over explicit state, one call
  per loop iteration; wall-clock time and random IVs are explicit inputs.
-/

/-! ### Constants (src/echostream.py) -/

def JITTER_BUFFER_SIZE : Nat := 8

def SAMPLES_PER_FRAME : Nat := 1920

def MAX_CHANNELS : Nat := 4

def SAMPLE_RATE : Nat := 48000

/-! ### Crypto model (src/crypto.py)

The AESGCM object from the `cryptography` library is external to the
repository.  It is modelled as a concrete authenticated cipher: a keystream
byte-add core (so ciphertext length equals plaintext length) followed by a
16-byte tag that is a function of key, IV and ciphertext; decryption verifies
the tag and inverts the core.  crypto.py's own logic (key length guard,
minimum length guard, IV/tag framing) is translated verbatim. -/

def aeadKeystreamByte (key iv : List Nat) (i : Nat) : Nat :=
  (key.getD (i % 32) 0 + iv.getD (i % 12) 0 + i) % 256

def aeadCore (key iv pt : List Nat) : List Nat :=
  pt.enum.map (fun p => (p.2 + aeadKeystreamByte key iv p.1) % 256)

def aeadDecCore (key iv ct : List Nat) : List Nat :=
  ct.enum.map (fun p => (p.2 + 256 - aeadKeystreamByte key iv p.1) % 256)

def aeadTag (key iv ct : List Nat) : List Nat :=
  (List.range 16).map (fun j => (key.sum + 3 * iv.sum + 7 * ct.sum + ct.length + 11 * j) % 256)

/-- encrypt_data (src/crypto.py:50): rejects keys that are not 32 bytes,
otherwise returns IV(12) || ciphertext || tag(16).  The random IV produced by
os.urandom(12) is an explicit argument. -/
def encrypt_data (data : List Nat) (key : List Nat) (iv : List Nat) : Option (List Nat) :=
  if key.length ≠ 32 then none
  else some (iv ++ aeadCore key iv data ++ aeadTag key iv (aeadCore key iv data))

/-- decrypt_data (src/crypto.py:82): rejects blobs shorter than 28 bytes and
keys that are not 32 bytes; splits IV(12) || ciphertext || tag(16); tag
verification failure yields none. -/
def decrypt_data (data : List Nat) (key : List Nat) : Option (List Nat) :=
  if data.length < 28 then none
  else if key.length ≠ 32 then none
  else
    let iv := data.take 12
    let ctt := data.drop 12
    let ct := ctt.take (ctt.length - 16)
    let tag := ctt.drop (ctt.length - 16)
    if aeadTag key iv ct = tag then some (aeadDecCore key iv ct) else none

/-! ### Base64 decoding (src/crypto.py:22 decode_base64)

Python's base64.b64decode (validate=False) discards characters outside the
alphabet, then decodes groups of four sextets with strict padding; on error
decode_base64 returns the empty byte string. -/

def b64CharVal (c : Char) : Option Nat :=
  if 'A' ≤ c ∧ c ≤ 'Z' then some (c.toNat - 65)
  else if 'a' ≤ c ∧ c ≤ 'z' then some (c.toNat - 97 + 26)
  else if '0' ≤ c ∧ c ≤ '9' then some (c.toNat - 48 + 52)
  else if c = '+' then some 62
  else if c = '/' then some 63
  else none

def b64DecodeChunks : List Char → Option (List Nat)
  | [] => some []
  | c0 :: c1 :: c2 :: c3 :: rest =>
    match b64CharVal c0, b64CharVal c1 with
    | some v0, some v1 =>
      if c2 = '=' then
        if c3 = '=' ∧ rest = [] then some [v0 * 4 + v1 / 16] else none
      else
        match b64CharVal c2 with
        | some v2 =>
          if c3 = '=' then
            if rest = [] then some [v0 * 4 + v1 / 16, (v1 % 16) * 16 + v2 / 4] else none
          else
            match b64CharVal c3 with
            | some v3 =>
              (b64DecodeChunks rest).map
                (fun tl => (v0 * 4 + v1 / 16) :: ((v1 % 16) * 16 + v2 / 4) :: ((v2 % 4) * 64 + v3) :: tl)
            | none => none
        | none => none
    | _, _ => none
  | _ => none

def decode_base64 (s : String) : List Nat :=
  let cs := s.toList.filter (fun c => (b64CharVal c).isSome ∨ c = '=')
  match b64DecodeChunks cs with
  | some bs => bs
  | none => []

/-! ### Sample arithmetic (numpy operations used by src/audio.py, src/udp.py) -/

/-- np.clip(x, -1.0, 1.0) on one sample. -/
def clipUnit (x : ℚ) : ℚ := max (-1) (min 1 x)

/-- Truncation toward zero, the behaviour of the C cast underlying numpy's
astype on floats. -/
def ratTrunc (q : ℚ) : ℤ := if 0 ≤ q then ⌊q⌋ else -⌊-q⌋

/-- Two's-complement wrap of an integer into int16 range. -/
def wrapInt16 (n : ℤ) : ℤ := (n + 32768) % 65536 - 32768

/-- The float→int16 conversion on the capture path
(src/audio.py:406 `(buf * 32767.0).astype(np.int16)`): scale by 32767, then a
C-style cast, i.e. truncation toward zero followed by a wrap modulo 2^16.
No clipping is applied on this path. -/
def captureFloatToInt16 (x : ℚ) : ℤ := wrapInt16 (ratTrunc (x * 32767))

/-- The int16→float conversion with ×20 gain on the receive path
(src/udp.py:161): pcm/32767, then ×20, then np.clip to [-1, 1]. -/
def receiveInt16ToFloat (v : ℤ) : ℚ := clipUnit ((v : ℚ) / 32767 * 20)

/-! ### Jitter buffer (src/audio.py JitterBuffer, src/udp.py push, src/audio.py pull)

`AudioFrame` and `JitterBuffer` are the structures of src/audio.py:22-34.
`frames` always has `JITTER_BUFFER_SIZE` entries.  The reader's
`current_output_frame_pos` lives in `AudioStream` in the source; here it is
passed alongside the buffer.  Sample counts and read offsets are naturals;
all states arising in the running system keep the read offset at most the
head frame's sample count (every stored frame holds 1920 samples), on which
domain the model coincides with the Python code. -/

structure AudioFrame where
  samples : List ℚ
  sample_count : Nat
  valid : Bool
deriving Repr, DecidableEq

def AudioFrame.blank : AudioFrame :=
  { samples := List.replicate SAMPLES_PER_FRAME 0, sample_count := 0, valid := false }

structure JitterBuffer where
  frames : List AudioFrame
  write_index : Nat
  read_index : Nat
  frame_count : Nat
deriving Repr, DecidableEq

def JitterBuffer.empty : JitterBuffer :=
  { frames := List.replicate JITTER_BUFFER_SIZE AudioFrame.blank,
    write_index := 0, read_index := 0, frame_count := 0 }

/-- The jitter-buffer insertion of process_received_audio (src/udp.py:169-195):
if full, drop the oldest frame (advance read_index, decrement frame_count,
count one drop); then overwrite the frame at write_index in place (the first
`samples.length` stored samples are replaced, the tail of the 1920-sample
slot is untouched), set its count and validity, advance write_index and
increment frame_count.  Returns the new buffer and the increment applied to
the channel's drop counter. -/
def jitterPush (jb : JitterBuffer) (samples : List ℚ) : JitterBuffer × Nat :=
  let dropped :=
    if JITTER_BUFFER_SIZE ≤ jb.frame_count then
      ({ jb with read_index := (jb.read_index + 1) % JITTER_BUFFER_SIZE,
                 frame_count := jb.frame_count - 1 }, 1)
    else (jb, 0)
  let jb1 := dropped.1
  let oldFrame := jb1.frames.getD jb1.write_index AudioFrame.blank
  let newFrame : AudioFrame :=
    { samples := samples ++ oldFrame.samples.drop samples.length,
      sample_count := samples.length,
      valid := true }
  ({ jb1 with frames := jb1.frames.set jb1.write_index newFrame,
              write_index := (jb1.write_index + 1) % JITTER_BUFFER_SIZE,
              frame_count := jb1.frame_count + 1 }, dropped.2)

/-- One gained, clipped playback sample (src/audio.py:493-496, output_gain 1.5). -/
def playbackSample (s : ℚ) : ℚ := clipUnit (s * 1.5)

/-- The jitter-buffer fill loop of audio_output_worker (src/audio.py:482-521),
one recursive call per while-iteration.  State: buffer, read offset
(current_output_frame_pos), and the output samples filled so far (the source
writes sequentially into a 1024-sample array at index frames_filled).
The loop always terminates from states with frame_count ≤ 8; the fuel
argument makes the recursion structural and is chosen large enough. -/
def pullLoop : Nat → JitterBuffer → Nat → List ℚ → JitterBuffer × Nat × List ℚ
  | 0, jb, pos, out => (jb, pos, out)
  | fuel + 1, jb, pos, out =>
    if 1024 ≤ out.length then (jb, pos, out)
    else if 0 < jb.frame_count then
      let fr := jb.frames.getD jb.read_index AudioFrame.blank
      if fr.valid then
        let remaining := fr.sample_count - pos
        let toCopy := min (1024 - out.length) remaining
        let out1 := out ++ ((fr.samples.drop pos).take toCopy).map playbackSample
        let pos1 := pos + toCopy
        if fr.sample_count ≤ pos1 then
          pullLoop fuel
            { jb with frames := jb.frames.set jb.read_index { fr with valid := false },
                      read_index := (jb.read_index + 1) % JITTER_BUFFER_SIZE,
                      frame_count := jb.frame_count - 1 }
            0 out1
        else
          pullLoop fuel jb pos1 out1
      else
        pullLoop fuel
          { jb with read_index := (jb.read_index + 1) % JITTER_BUFFER_SIZE,
                    frame_count := jb.frame_count - 1 }
          0 out
    else
      (jb, pos, out ++ List.replicate (1024 - out.length) 0)

/-- Building one 1024-sample output chunk from the jitter buffer
(src/audio.py:478-523).  Returns the chunk together with the updated buffer
and read offset. -/
def audio_output_build_chunk (jb : JitterBuffer) (pos : Nat) :
    List ℚ × JitterBuffer × Nat :=
  let r := pullLoop (jb.frame_count + 3) jb pos []
  (r.2.2, r.1, r.2.1)

/-- The playable content of one frame from read offset p: nothing if the
frame is invalid, otherwise its stored samples from p up to sample_count,
gained and clipped as playback emits them. -/
def frameSeg (fr : AudioFrame) (p : Nat) : List ℚ :=
  if fr.valid then ((fr.samples.take fr.sample_count).drop p).map playbackSample else []

def jitterFlattenAux (frames : List AudioFrame) : Nat → Nat → Nat → List ℚ
  | _, _, 0 => []
  | ri, pos, n + 1 =>
    frameSeg (frames.getD ri AudioFrame.blank) pos ++
      jitterFlattenAux frames ((ri + 1) % JITTER_BUFFER_SIZE) 0 n

/-- In-order remaining playable content of the buffer: the head frame from
the current read offset, then each later buffered frame in full. -/
def jitterFlatten (jb : JitterBuffer) (pos : Nat) : List ℚ :=
  jitterFlattenAux jb.frames jb.read_index pos jb.frame_count

/-- Well-formedness of a buffer/reader state; maintained by all reachable
states of the running system. -/
def JitterWF (jb : JitterBuffer) (pos : Nat) : Prop :=
  jb.frames.length = JITTER_BUFFER_SIZE ∧
  jb.read_index < JITTER_BUFFER_SIZE ∧
  jb.frame_count ≤ JITTER_BUFFER_SIZE ∧
  (∀ fr ∈ jb.frames, fr.sample_count ≤ fr.samples.length) ∧
  ((jb.frames.getD jb.read_index AudioFrame.blank).valid = true →
    pos ≤ (jb.frames.getD jb.read_index AudioFrame.blank).sample_count)

instance (jb : JitterBuffer) (pos : Nat) : Decidable (JitterWF jb pos) := by
  unfold JitterWF; infer_instance

def foldPush (jb : JitterBuffer) (l : List (List ℚ)) : JitterBuffer :=
  l.foldl (fun b s => (jitterPush b s).1) jb

/-! ### Base64 encoding (src/crypto.py:10 encode_base64) -/

def b64ValChar (v : Nat) : Char :=
  if v < 26 then Char.ofNat (65 + v)
  else if v < 52 then Char.ofNat (97 + (v - 26))
  else if v < 62 then Char.ofNat (48 + (v - 52))
  else if v = 62 then '+'
  else '/'

def b64EncodeChunks : List Nat → List Char
  | [] => []
  | [b0] => [b64ValChar (b0 / 4), b64ValChar (b0 % 4 * 16), '=', '=']
  | [b0, b1] => [b64ValChar (b0 / 4), b64ValChar (b0 % 4 * 16 + b1 / 16),
                 b64ValChar (b1 % 16 * 4), '=']
  | b0 :: b1 :: b2 :: rest =>
    b64ValChar (b0 / 4) :: b64ValChar (b0 % 4 * 16 + b1 / 16) ::
      b64ValChar (b1 % 16 * 4 + b2 / 64) :: b64ValChar (b2 % 64) :: b64EncodeChunks rest

def encode_base64 (bs : List Nat) : String := String.mk (b64EncodeChunks bs)

/-! ### Capture path (src/audio.py:353 audio_input_worker)

One loop iteration of the capture worker, as a function of the state it
reads: the gpio_active flag at iteration entry, the availability of the
input stream, and the float samples the device read returns.  The Opus
encoder and the presence of the UDP socket are parameters; random IVs are an
explicit per-iteration supply.  The broadcast-buffer write (src/audio.py:387)
does not emit datagrams and is modelled in the tone-detector section as the
detector's wake input. -/

structure Datagram where
  channel_id : String
  data : String
deriving Repr, DecidableEq

structure CaptureParams where
  channelId : String
  key : List Nat
  encoderReady : Bool
  opusEncode : List ℤ → List Nat
  socketReady : Bool

structure CaptureState where
  input_buffer : List ℚ
  input_buffer_pos : Nat
deriving Repr, DecidableEq

structure CaptureIter where
  gpio_active : Bool
  stream_open : Bool
  readSamples : List ℚ
  ivs : List (List Nat)

/-- The encode/encrypt/send body entered when the accumulator holds 1920
samples (src/audio.py:404-429). -/
def captureEmit (P : CaptureParams) (buf : List ℚ) (iv : List Nat) : List Datagram :=
  if P.encoderReady then
    let pcm := (buf.take 1920).map captureFloatToInt16
    let opus := P.opusEncode pcm
    if 0 < opus.length then
      match encrypt_data opus P.key iv with
      | some encrypted =>
        if P.socketReady then
          [{ channel_id := P.channelId, data := encode_base64 encrypted }]
        else []
      | none => []
    else []
  else []

/-- Accumulating one read sample (the for-loop body, src/audio.py:396-432). -/
def captureAccumSample (P : CaptureParams)
    (acc : CaptureState × List (List Nat) × List Datagram) (sample : ℚ) :
    CaptureState × List (List Nat) × List Datagram :=
  let st := acc.1
  let pos0 := if 4800 ≤ st.input_buffer_pos then 0 else st.input_buffer_pos
  let buf := st.input_buffer.set pos0 sample
  let pos := pos0 + 1
  if 1920 ≤ pos then
    let ds := captureEmit P buf (acc.2.1.headD [])
    (⟨buf, 0⟩, acc.2.1.tail, acc.2.2 ++ ds)
  else
    (⟨buf, pos⟩, acc.2.1, acc.2.2)

/-- One iteration of the capture worker loop (src/audio.py:368-437).
Returns the new accumulator state and the UDP audio datagrams the iteration
sent.  If gpio_active is false the iteration only sleeps. -/
def audio_input_iter (P : CaptureParams) (st : CaptureState) (it : CaptureIter) :
    CaptureState × List Datagram :=
  if it.gpio_active = false then (st, [])
  else if it.stream_open = false then (st, [])
  else if it.readSamples.length = 0 then (st, [])
  else
    let r := it.readSamples.foldl (captureAccumSample P) (st, it.ivs, [])
    (r.1, r.2.2)

/-- The capture worker loop over a finite run of iterations, collecting every
datagram sent. -/
def audio_input_run (P : CaptureParams) (st : CaptureState) :
    List CaptureIter → CaptureState × List Datagram
  | [] => (st, [])
  | it :: rest =>
    let r := audio_input_iter P st it
    let rr := audio_input_run P r.1 rest
    (rr.1, r.2 ++ rr.2)

/-! ### Session key installation (src/websocket.py:147-154, src/audio.py:120-124)

When the signalling channel delivers the UDP endpoint, websocket_handler
iterates over the active channels and installs the AES key obtained by
base64-decoding the string literal written in the source.  The parsed
configuration (ServerConfig: udp_host, udp_port, websocket_id) carries no key
field; `session_key_b64` below is the key the specification says the
configuration supplies, which the code never reads. -/

def hardcodedSessionKeyB64 : String := "46dR4QR5KH7JhPyyjh/ZS4ki/3QBVwwOTkkQTdZQkC0="

structure WsConfigMsg where
  udp_host : String
  udp_port : ℤ
  websocket_id : ℤ
  session_key_b64 : String

structure UdpChannel where
  active : Bool
  channel_id : String
  key : List Nat
  decoderReady : Bool
  jb : JitterBuffer
deriving Repr, DecidableEq

def UdpChannel.blank : UdpChannel :=
  { active := false, channel_id := "", key := List.replicate 32 0,
    decoderReady := false, jb := JitterBuffer.empty }

/-- The per-channel key installation performed after parse_websocket_config
succeeds and setup_global_udp returns true (src/websocket.py:148-154). -/
def websocket_install_keys (_msg : WsConfigMsg) (channels : List UdpChannel) :
    List UdpChannel :=
  channels.map (fun ch =>
    if ch.active then
      let key_bytes := decode_base64 hardcodedSessionKeyB64
      if key_bytes.length = 32 then { ch with key := key_bytes } else ch
    else ch)

/-- Modelled from the spec: the specification (§4.9, §6) states that the
installed session key is the 32-byte value obtained by base64-decoding the
key supplied in the configuration input; this definition follows the spec's
words and is compared against the code's installation above. -/
def specInstalledKey (msg : WsConfigMsg) : List Nat := decode_base64 msg.session_key_b64

/-! ### UDP receive path (src/udp.py:213 udp_listener_worker, :124 process_received_audio)

Handling of one received datagram after JSON parsing.  The Opus decoder is
an external library, taken as a parameter returning none on decode errors or
empty output (src/udp.py:154-158).  Per-channel statistics arrays are as in
src/udp.py:24-26. -/

structure UdpStats where
  jitter_drop_count : List Nat
  decrypt_fail_count : List Nat
  zero_key_warned : List Bool
deriving Repr, DecidableEq

structure UdpPacket where
  channel_id : String
  msgType : String
  data : String
deriving Repr, DecidableEq

/-- Opus decode, int16→float ×20 conversion and jitter-buffer insertion
(src/udp.py:124-206). -/
def process_received_audio (opusDecode : List Nat → Option (List ℤ))
    (ch : UdpChannel) (stats : UdpStats) (i : Nat) (opusData : List Nat) :
    UdpChannel × UdpStats :=
  if ch.decoderReady = false then (ch, stats)
  else
    match opusDecode opusData with
    | none => (ch, stats)
    | some pcm =>
      let samples := pcm.map receiveInt16ToFloat
      let pushed := jitterPush ch.jb samples
      ({ ch with jb := pushed.1 },
       { stats with jitter_drop_count :=
          stats.jitter_drop_count.set i (stats.jitter_drop_count.getD i 0 + pushed.2) })

/-- Handling of one datagram in the receive loop body (src/udp.py:238-317):
only type "audio" is processed; the channel is resolved by a linear scan of
the active channels; base64 failures, unknown channels and decrypt failures
leave the loop running.  Returns the updated channels and statistics. -/
def udp_handle_packet (opusDecode : List Nat → Option (List ℤ))
    (channels : List UdpChannel) (stats : UdpStats) (pkt : UdpPacket) :
    List UdpChannel × UdpStats :=
  if pkt.msgType ≠ "audio" then (channels, stats)
  else
    match channels.findIdx? (fun ch => ch.active ∧ ch.channel_id = pkt.channel_id) with
    | none => (channels, stats)
    | some i =>
      let ch := channels.getD i UdpChannel.blank
      let encrypted := decode_base64 pkt.data
      if encrypted.length = 0 then (channels, stats)
      else
        let keyIsZero := ch.key.all (· = 0)
        let stats1 :=
          if keyIsZero = false then
            { stats with zero_key_warned := stats.zero_key_warned.set i false }
          else stats
        match decrypt_data encrypted ch.key with
        | some decrypted =>
          let r := process_received_audio opusDecode ch stats1 i decrypted
          (channels.set i r.1, r.2)
        | none =>
          if keyIsZero then
            (channels, { stats1 with zero_key_warned := stats1.zero_key_warned.set i true })
          else
            (channels,
             { stats1 with decrypt_fail_count :=
                stats1.decrypt_fail_count.set i (stats1.decrypt_fail_count.getD i 0 + 1) })

/-! ### Tone detector (src/tone_detect.py)

The FFT frequency estimator freq_from_fft (src/tone_detect.py:162, Hann
window, real FFT, parabolic peak interpolation) computes over real numbers;
it is taken as an oracle parameter `freqEst` so that the detector's control
flow, which the claims are about, is embedded exactly.  Wall-clock
milliseconds are an explicit `now` argument (int(time.time() * 1000)); the
same wake uses one value.  Python iterates the deduplicated length set in an
unspecified order before the stable sort by descending total length; the
model deduplicates keeping first occurrences, which fixes one admissible
order for groups of equal total length. -/

structure ToneDefinition where
  tone_id : String
  tone_a_freq : ℚ
  tone_b_freq : ℚ
  tone_a_length_ms : ℤ
  tone_b_length_ms : ℤ
  tone_a_range_hz : ℤ
  tone_b_range_hz : ℤ
  record_length_ms : ℤ
  valid : Bool
deriving Repr, DecidableEq

structure ToneDetectionState where
  active : Bool
  audio_buffer : List ℚ
  last_detect_time : ℤ
  total_detections : Nat
  recording_active : Bool
  recording_start_time : ℤ
  recording_duration_ms : ℤ
  passthrough_active : Bool
  passthrough_tone_a_freq : ℚ
  passthrough_tone_b_freq : ℚ
  passthrough_mode : Bool
deriving Repr, DecidableEq

/-- trigger_tone_passthrough (src/tone_detect.py:186-202) together with
start_recording_timer (:204-211): set the passthrough flags, arm the
recording timer only when record_length_ms > 0, and switch the audio
module's passthrough output mode on. -/
def trigger_tone_passthrough (d : ToneDefinition) (now : ℤ)
    (st : ToneDetectionState) : ToneDetectionState :=
  let st1 := { st with passthrough_active := true,
                       passthrough_tone_a_freq := d.tone_a_freq,
                       passthrough_tone_b_freq := d.tone_b_freq }
  let st2 :=
    if 0 < d.record_length_ms then
      { st1 with recording_active := true,
                 recording_start_time := now,
                 recording_duration_ms := d.record_length_ms }
    else st1
  { st2 with passthrough_mode := true }

/-- Length pairs in seconds of the valid definitions (src/tone_detect.py:250-255). -/
def toneLengthPairs (defs : List ToneDefinition) : List (ℚ × ℚ) :=
  (defs.filter (fun d => d.valid)).map
    (fun d => ((d.tone_a_length_ms : ℚ) / 1000, (d.tone_b_length_ms : ℚ) / 1000))

def dedupKeepFirst (l : List (ℚ × ℚ)) : List (ℚ × ℚ) :=
  l.foldl (fun acc x => if x ∈ acc then acc else acc ++ [x]) []

def insertByTotalDesc (x : ℚ × ℚ) : List (ℚ × ℚ) → List (ℚ × ℚ)
  | [] => [x]
  | y :: ys => if y.1 + y.2 < x.1 + x.2 then x :: y :: ys else y :: insertByTotalDesc x ys

/-- sorted(set(lengths), key := total length, reverse) (src/tone_detect.py:257):
stable descending sort of the deduplicated pairs. -/
def uniqueLengthGroups (defs : List ToneDefinition) : List (ℚ × ℚ) :=
  (dedupKeepFirst (toneLengthPairs defs)).foldl (fun acc x => insertByTotalDesc x acc) []

/-- The state change of one firing detection (src/tone_detect.py:320-324):
record now as last_detect_time, bump total_detections, trigger passthrough. -/
def toneFireState (d : ToneDefinition) (now : ℤ) (st : ToneDetectionState) :
    ToneDetectionState :=
  { trigger_tone_passthrough d now st with
      last_detect_time := now,
      total_detections := st.total_detections + 1 }

/-- The inner definitions loop (src/tone_detect.py:295-326): skip invalid
definitions and those whose lengths differ from the group by more than
0.1 s; on frequency match within max(range, 10) for both tones, and strictly
more than max(tone_a_length_ms, tone_b_length_ms) since the shared
last_detect_time, fire: record now, bump the counter, trigger passthrough,
and break. -/
def toneDefsLoop (now : ℤ) (lA lB aFreq bFreq : ℚ) :
    List ToneDefinition → ToneDetectionState → ToneDetectionState × Option ToneDefinition
  | [], st => (st, none)
  | d :: rest, st =>
    if d.valid = false then toneDefsLoop now lA lB aFreq bFreq rest st
    else if 1 / 10 < |(d.tone_a_length_ms : ℚ) / 1000 - lA| ∨
            1 / 10 < |(d.tone_b_length_ms : ℚ) / 1000 - lB| then
      toneDefsLoop now lA lB aFreq bFreq rest st
    else
      let aMatch := |d.tone_a_freq - aFreq| ≤ max (d.tone_a_range_hz : ℚ) 10
      let bMatch := |d.tone_b_freq - bFreq| ≤ max (d.tone_b_range_hz : ℚ) 10
      let timeSinceLast := now - st.last_detect_time
      let maxToneLen := max d.tone_a_length_ms d.tone_b_length_ms
      if aMatch ∧ bMatch ∧ maxToneLen < timeSinceLast then
        (toneFireState d now st, some d)
      else toneDefsLoop now lA lB aFreq bFreq rest st

/-- Per-group analysis (src/tone_detect.py:263-289): skip if the buffer is
shorter than the group's total length, the indices are degenerate, or either
segment is shorter than int(SAMPLE_RATE * 0.1) = 4800 samples; otherwise
estimate both segment frequencies and run the definitions loop.  The third
component records whether the group reached frequency analysis (the ghost
observation quantifying which length groups a wake processes). -/
def toneGroupAnalyze (freqEst : List ℚ → ℚ) (now : ℤ) (defs : List ToneDefinition)
    (buf : List ℚ) (st : ToneDetectionState) (g : ℚ × ℚ) :
    ToneDetectionState × Option ToneDefinition × Bool :=
  let required := ratTrunc ((g.1 + g.2) * (SAMPLE_RATE : ℚ))
  if (buf.length : ℤ) < required then (st, none, false)
  else
    let startIdx := ratTrunc ((g.1 + g.2) * (SAMPLE_RATE : ℚ))
    let endIdx := ratTrunc (g.2 * (SAMPLE_RATE : ℚ))
    if startIdx ≤ 0 ∨ endIdx ≤ 0 ∨ startIdx ≤ endIdx then (st, none, false)
    else if (buf.length : ℤ) < startIdx then (st, none, false)
    else
      let aSeg := (buf.drop (buf.length - startIdx.toNat)).take (startIdx.toNat - endIdx.toNat)
      let bSeg := buf.drop (buf.length - endIdx.toNat)
      if aSeg.length < 4800 ∨ bSeg.length < 4800 then (st, none, false)
      else
        let r := toneDefsLoop now g.1 g.2 (freqEst aSeg) (freqEst bSeg) defs st
        (r.1, r.2, true)

/-- The loop over all length groups (src/tone_detect.py:263-326).  The break
at :326 leaves only the inner definitions loop; the outer loop continues
with the next group.  Accumulates the fired definitions and the groups that
reached analysis, in order. -/
def toneGroupStep (freqEst : List ℚ → ℚ) (now : ℤ) (defs : List ToneDefinition)
    (buf : List ℚ)
    (acc : ToneDetectionState × List ToneDefinition × List (ℚ × ℚ)) (g : ℚ × ℚ) :
    ToneDetectionState × List ToneDefinition × List (ℚ × ℚ) :=
  let r := toneGroupAnalyze freqEst now defs buf acc.1 g
  (r.1, acc.2.1 ++ r.2.1.toList, acc.2.2 ++ if r.2.2 then [g] else [])

def toneGroupsPhase (freqEst : List ℚ → ℚ) (now : ℤ) (defs : List ToneDefinition)
    (buf : List ℚ) (st : ToneDetectionState) (groups : List (ℚ × ℚ)) :
    ToneDetectionState × List ToneDefinition × List (ℚ × ℚ) :=
  groups.foldl (toneGroupStep freqEst now defs buf) (st, [], [])

/-- The recording-timer expiry check run at the end of each wake
(src/tone_detect.py:329-338 with get_recording_time_remaining_ms :218-225):
when recording is active and the elapsed time has reached the duration,
clear passthrough and recording and switch passthrough output off. -/
def toneTimerExpiry (now : ℤ) (st : ToneDetectionState) : ToneDetectionState :=
  if st.recording_active then
    let remaining := max 0 (st.recording_duration_ms - (now - st.recording_start_time))
    if remaining ≤ 0 then
      { st with passthrough_active := false, recording_active := false,
                passthrough_mode := false }
    else st
  else st

structure WakeResult where
  state : ToneDetectionState
  fired : List ToneDefinition
  analyzed : List (ℚ × ℚ)
  retval : Bool
deriving Repr, DecidableEq

/-- One wake of the detector, process_audio_python_approach
(src/tone_detect.py:227-340): append the broadcast snapshot to the sliding
buffer (cap 10 s = 480000 samples), require at least 1 s of audio and at
least one length group, process every group, then run the timer-expiry
check; returns the final passthrough_active flag. -/
def toneWakeBufferUpdate (samples : List ℚ) (sample_count : Nat)
    (st : ToneDetectionState) : ToneDetectionState :=
  let buf0 := st.audio_buffer ++ samples.take sample_count
  let buf := if 480000 < buf0.length then buf0.drop (buf0.length - 480000) else buf0
  { st with audio_buffer := buf }

def process_audio_python_approach (freqEst : List ℚ → ℚ) (now : ℤ)
    (samples : List ℚ) (sample_count : Nat) (defs : List ToneDefinition)
    (st : ToneDetectionState) : WakeResult :=
  if st.active = false then ⟨st, [], [], false⟩
  else
    let st1 := toneWakeBufferUpdate samples sample_count st
    if st1.audio_buffer.length < SAMPLE_RATE then ⟨st1, [], [], false⟩
    else
      let groups := uniqueLengthGroups defs
      if groups = [] then ⟨st1, [], [], false⟩
      else
        let gp := toneGroupsPhase freqEst now defs st1.audio_buffer st1 groups
        let st2 := toneTimerExpiry now gp.1
        ⟨st2, gp.2.1, gp.2.2, st2.passthrough_active⟩

/-- The detector state reached between the group loop and the timer-expiry
check of one wake (between src/tone_detect.py:326 and :329), together with
the fired definitions and analyzed groups. -/
def toneWakeMid (freqEst : List ℚ → ℚ) (now : ℤ) (samples : List ℚ)
    (sample_count : Nat) (defs : List ToneDefinition) (st : ToneDetectionState) :
    ToneDetectionState × List ToneDefinition × List (ℚ × ℚ) :=
  let st1 := toneWakeBufferUpdate samples sample_count st
  toneGroupsPhase freqEst now defs st1.audio_buffer st1 (uniqueLengthGroups defs)

/-! ### Concrete instances used by witnesses and counterexamples -/

def c1Params : CaptureParams :=
  { channelId := "channel-a", key := List.replicate 32 0, encoderReady := true,
    opusEncode := fun _ => [1], socketReady := true }

def c1State : CaptureState :=
  { input_buffer := List.replicate 4800 0, input_buffer_pos := 0 }

def c1IterOff : CaptureIter :=
  { gpio_active := false, stream_open := true,
    readSamples := List.replicate 1024 0, ivs := [[]] }

def zeroKeyB64 : String := encode_base64 (List.replicate 32 0)

def c4msg : WsConfigMsg :=
  { udp_host := "relay.example", udp_port := 5000, websocket_id := 7,
    session_key_b64 := zeroKeyB64 }

def c4channel : UdpChannel :=
  { UdpChannel.blank with active := true, channel_id := "ch-one" }

def c6full : JitterBuffer := { JitterBuffer.empty with frame_count := 8 }

def c8key : List Nat := List.replicate 32 7

def c8iv : List Nat := List.replicate 12 5

def c8blob : List Nat := (encrypt_data [1, 2, 3] c8key c8iv).getD []

def c8flipped : List Nat := c8blob.dropLast ++ [(c8blob.getLastD 0 + 1) % 256]

def c8channel : UdpChannel :=
  { active := true, channel_id := "ch-one", key := c8key, decoderReady := true,
    jb := JitterBuffer.empty }

def c8stats : UdpStats :=
  { jitter_drop_count := List.replicate 4 0, decrypt_fail_count := List.replicate 4 0,
    zero_key_warned := List.replicate 4 false }

def c8packet : UdpPacket :=
  { channel_id := "ch-one", msgType := "audio", data := encode_base64 c8flipped }

def toneDefA : ToneDefinition :=
  { tone_id := "alpha", tone_a_freq := 700, tone_b_freq := 1000,
    tone_a_length_ms := 400, tone_b_length_ms := 300,
    tone_a_range_hz := 10, tone_b_range_hz := 10,
    record_length_ms := 0, valid := true }

def toneDefB : ToneDefinition :=
  { tone_id := "beta", tone_a_freq := 500, tone_b_freq := 600,
    tone_a_length_ms := 200, tone_b_length_ms := 150,
    tone_a_range_hz := 10, tone_b_range_hz := 10,
    record_length_ms := 5000, valid := true }

def toneDefsCX : List ToneDefinition := [toneDefA, toneDefB]

/-- A frequency-estimate oracle for the concrete detector scenario: the tone
A segment of the longest group has 19200 samples and estimates 700 Hz, the
tone B segment has 14400 samples and estimates 1000 Hz; every other segment
estimates 0 Hz. -/
def freqOracle : List ℚ → ℚ := fun seg =>
  if seg.length = 19200 then 700 else if seg.length = 14400 then 1000 else 0

def freqOracleZero : List ℚ → ℚ := fun _ => 0

def toneStateCX : ToneDetectionState :=
  { active := true, audio_buffer := List.replicate 48000 0,
    last_detect_time := -1000000, total_detections := 0,
    recording_active := false, recording_start_time := 0, recording_duration_ms := 0,
    passthrough_active := false, passthrough_tone_a_freq := 0,
    passthrough_tone_b_freq := 0, passthrough_mode := false }

def toneStateRec : ToneDetectionState :=
  { toneStateCX with recording_active := true, recording_start_time := 0,
                     recording_duration_ms := 100, passthrough_active := true,
                     passthrough_mode := true }

def c7frame : List ℚ := List.replicate 129 (1 / 5)

def c7big : List ℚ := List.replicate 1500 (1 / 5)

def c7marked : List ℚ := 1 / 10 :: List.replicate 128 (1 / 5)

/-- The frame slot produced by pushing `s` into a previously blank slot. -/
def c7slot (s : List ℚ) : AudioFrame :=
  { samples := s ++ (List.replicate SAMPLES_PER_FRAME (0 : ℚ)).drop s.length,
    sample_count := s.length, valid := true }

def c7afterFill : JitterBuffer :=
  foldPush JitterBuffer.empty (c7big :: c7marked :: List.replicate 6 c7frame)

def c7fillState : JitterBuffer :=
  { frames := [c7slot c7big, c7slot c7marked, c7slot c7frame, c7slot c7frame,
      c7slot c7frame, c7slot c7frame, c7slot c7frame, c7slot c7frame],
    write_index := 0, read_index := 0, frame_count := 8 }

def c7pull1 : List ℚ × JitterBuffer × Nat := audio_output_build_chunk c7afterFill 0

def c7overflow : JitterBuffer × Nat := jitterPush c7pull1.2.1 c7frame

def c7pull2 : List ℚ × JitterBuffer × Nat :=
  audio_output_build_chunk c7overflow.1 c7pull1.2.2

/-- The two length groups of the concrete detector scenario, in seconds:
(400 ms, 300 ms) and (200 ms, 150 ms). -/
def gA : ℚ × ℚ := (2 / 5, 3 / 10)

def gB : ℚ × ℚ := (1 / 5, 3 / 20)

/-! ## Theorems -/

theorem aeadCore_length (key iv pt : List Nat) : (aeadCore key iv pt).length = pt.length := by
  simp [aeadCore]

theorem aeadTag_length (key iv ct : List Nat) : (aeadTag key iv ct).length = 16 := by
  simp [aeadTag]

theorem ratTrunc_intCast (n : ℤ) : ratTrunc (n : ℚ) = n := by
  unfold ratTrunc
  rcases le_or_lt 0 (n : ℚ) with h | h
  · rw [if_pos h, Int.floor_intCast]
  · rw [if_neg (not_le.mpr h), ← Int.cast_neg, Int.floor_intCast, neg_neg]

/-- C9: for every plaintext and every 32-byte key, encrypt_data succeeds and
the returned blob has length plaintext + 12 + 16 with layout
IV(12) || ciphertext || tag(16); a key whose length is not 32 bytes yields
none. -/
theorem C9_encrypt_data_framing :
    (∀ (pt key iv : List Nat), key.length = 32 → iv.length = 12 →
      encrypt_data pt key iv =
        some (iv ++ aeadCore key iv pt ++ aeadTag key iv (aeadCore key iv pt)) ∧
      ∀ blob, encrypt_data pt key iv = some blob →
        blob.length = pt.length + 12 + 16 ∧
        blob.take 12 = iv ∧
        (blob.drop 12).take pt.length = aeadCore key iv pt ∧
        blob.drop (12 + pt.length) = aeadTag key iv (aeadCore key iv pt)) ∧
    (∀ (pt key iv : List Nat), key.length ≠ 32 → encrypt_data pt key iv = none) := by
  constructor
  · intro pt key iv hk hiv
    have henc : encrypt_data pt key iv =
        some (iv ++ aeadCore key iv pt ++ aeadTag key iv (aeadCore key iv pt)) := by
      simp [encrypt_data, hk]
    refine ⟨henc, ?_⟩
    intro blob hb
    rw [henc] at hb
    injection hb with hb
    subst hb
    have hc := aeadCore_length key iv pt
    have ht := aeadTag_length key iv (aeadCore key iv pt)
    refine ⟨?_, ?_, ?_, ?_⟩
    · simp [hc, ht, hiv]; omega
    · rw [List.append_assoc]
      exact List.take_left' hiv
    · rw [List.append_assoc, List.drop_left' hiv]
      exact List.take_left' hc
    · have hlen : (iv ++ aeadCore key iv pt).length = 12 + pt.length := by
        simp [hiv, hc]
      exact List.drop_left' hlen
  · intro pt key iv hk
    simp [encrypt_data, hk]

theorem C9_encrypt_data_framing_witness :
    ((List.replicate 32 0 : List Nat).length = 32 ∧
      (List.replicate 12 5 : List Nat).length = 12) ∧
    encrypt_data [1, 2, 3] (List.replicate 32 0) (List.replicate 12 5) =
      some (List.replicate 12 5 ++
        aeadCore (List.replicate 32 0) (List.replicate 12 5) [1, 2, 3] ++
        aeadTag (List.replicate 32 0) (List.replicate 12 5)
          (aeadCore (List.replicate 32 0) (List.replicate 12 5) [1, 2, 3])) :=
  ⟨⟨by simp, by simp⟩,
   (C9_encrypt_data_framing.1 [1, 2, 3] (List.replicate 32 0) (List.replicate 12 5)
      (by simp) (by simp)).1⟩

/-- C5 counterexample: the capture-path conversion of the out-of-range sample
2.0 yields the wrapped value -2, not the saturated value 32767 the claim
requires. -/
theorem C5_counterexample :
    captureFloatToInt16 2 = -2 ∧ captureFloatToInt16 2 ≠ 32767 := by
  have h1 : ((2 : ℚ) * 32767) = ((65534 : ℤ) : ℚ) := by norm_num
  have h2 : captureFloatToInt16 2 = -2 := by
    rw [captureFloatToInt16, h1, ratTrunc_intCast]
    decide
  exact ⟨h2, by rw [h2]; decide⟩

/-- C5 (amended): the capture-path conversion multiplies by 32767 and then
truncates toward zero with int16 wraparound, not saturation; for samples
within [-1, 1] no wrap occurs and the result is the truncated value, inside
[-32767, 32767]. -/
theorem C5_capture_conversion (x : ℚ) (h1 : -1 ≤ x) (h2 : x ≤ 1) :
    captureFloatToInt16 x = ratTrunc (x * 32767) ∧
    -32767 ≤ captureFloatToInt16 x ∧ captureFloatToInt16 x ≤ 32767 := by
  have hub : x * 32767 ≤ 32767 := by nlinarith
  have hlb : -32767 ≤ x * 32767 := by nlinarith
  have hb : -32767 ≤ ratTrunc (x * 32767) ∧ ratTrunc (x * 32767) ≤ 32767 := by
    unfold ratTrunc
    split
    next h =>
      constructor
      · have : (0 : ℤ) ≤ ⌊x * 32767⌋ := Int.floor_nonneg.mpr h
        omega
      · have h3 : ⌊x * 32767⌋ ≤ ⌊((32767 : ℤ) : ℚ)⌋ := by
          apply Int.floor_le_floor
          exact_mod_cast hub
        rw [Int.floor_intCast] at h3
        exact h3
    next h =>
      constructor
      · have h3 : ⌊-(x * 32767)⌋ ≤ ⌊((32767 : ℤ) : ℚ)⌋ := by
          apply Int.floor_le_floor
          push_cast
          linarith
        rw [Int.floor_intCast] at h3
        omega
      · have : (0 : ℤ) ≤ ⌊-(x * 32767)⌋ := by
          apply Int.floor_nonneg.mpr
          linarith
        omega
  have heq : captureFloatToInt16 x = ratTrunc (x * 32767) := by
    unfold captureFloatToInt16 wrapInt16
    omega
  exact ⟨heq, heq ▸ hb.1, heq ▸ hb.2⟩

theorem C5_capture_conversion_witness :
    (-1 ≤ (1 / 2 : ℚ) ∧ (1 / 2 : ℚ) ≤ 1) ∧
    captureFloatToInt16 (1 / 2) = ratTrunc ((1 / 2) * 32767) :=
  ⟨⟨by norm_num, by norm_num⟩,
   (C5_capture_conversion (1 / 2) (by norm_num) (by norm_num)).1⟩

/-- C4 counterexample: a configuration supplying the all-zero 32-byte key
(base64 encoded) still gets the constant key written in the source installed;
the installed key is not the base64 decoding of the configured key. -/
theorem C4_counterexample :
    (websocket_install_keys c4msg [c4channel]).map (fun ch => ch.key) ≠
      [specInstalledKey c4msg] ∧
    specInstalledKey c4msg = List.replicate 32 0 ∧
    (websocket_install_keys c4msg [c4channel]).map (fun ch => ch.key) =
      [decode_base64 hardcodedSessionKeyB64] := by
  refine ⟨by decide, by decide, by decide⟩

/-- C4 (amended): when the endpoint configuration arrives, each active
channel gets the 32-byte key obtained by base64-decoding the string constant
hardcoded in the source installed; the configuration input plays no role in
the installed key. -/
theorem C4_installed_key_constant (msg : WsConfigMsg) (channels : List UdpChannel) :
    (decode_base64 hardcodedSessionKeyB64).length = 32 ∧
    websocket_install_keys msg channels =
      channels.map (fun ch =>
        if ch.active then { ch with key := decode_base64 hardcodedSessionKeyB64 }
        else ch) ∧
    ∀ msg2, websocket_install_keys msg channels = websocket_install_keys msg2 channels := by
  have h32 : (decode_base64 hardcodedSessionKeyB64).length = 32 := by decide
  exact ⟨h32, by simp [websocket_install_keys, h32], fun msg2 => rfl⟩

/-- C1: a capture-loop iteration entered with gpio_active false changes
nothing and sends no datagram; over any run whose iterations are all entered
with the flag false, no UDP audio datagram is emitted. -/
theorem C1_ptt_gating :
    (∀ (P : CaptureParams) (st : CaptureState) (it : CaptureIter),
      it.gpio_active = false → audio_input_iter P st it = (st, [])) ∧
    (∀ (P : CaptureParams) (st : CaptureState) (its : List CaptureIter),
      (∀ it ∈ its, it.gpio_active = false) → (audio_input_run P st its).2 = []) := by
  have hstep : ∀ (P : CaptureParams) (st : CaptureState) (it : CaptureIter),
      it.gpio_active = false → audio_input_iter P st it = (st, []) := by
    intro P st it h
    simp [audio_input_iter, h]
  refine ⟨hstep, ?_⟩
  intro P st its h
  induction its generalizing st with
  | nil => rfl
  | cons it rest ih =>
    have h1 : it.gpio_active = false := h it (List.mem_cons_self it rest)
    have h2 : ∀ x ∈ rest, x.gpio_active = false := fun x hx => h x (List.mem_cons_of_mem it hx)
    simp only [audio_input_run, hstep P st it h1]
    simpa using ih st h2

theorem C1_ptt_gating_witness :
    c1IterOff.gpio_active = false ∧
    audio_input_iter c1Params c1State c1IterOff = (c1State, []) :=
  ⟨rfl, C1_ptt_gating.1 c1Params c1State c1IterOff rfl⟩

/-- C6: pushes keep the frame count within capacity 8, over any sequence of
pushes; a push onto a full buffer keeps frame_count at 8, advances
read_index past the oldest frame, and increments the drop counter by exactly
1, while a push onto a non-full buffer drops nothing. -/
theorem C6_jitter_capacity :
    (∀ (jb : JitterBuffer) (s : List ℚ), jb.frame_count ≤ JITTER_BUFFER_SIZE →
      (jitterPush jb s).1.frame_count ≤ JITTER_BUFFER_SIZE) ∧
    (∀ (jb : JitterBuffer) (pushes : List (List ℚ)),
      jb.frame_count ≤ JITTER_BUFFER_SIZE →
      ∀ k, (foldPush jb (pushes.take k)).frame_count ≤ JITTER_BUFFER_SIZE) ∧
    (∀ (jb : JitterBuffer) (s : List ℚ), jb.frame_count = JITTER_BUFFER_SIZE →
      (jitterPush jb s).1.frame_count = JITTER_BUFFER_SIZE ∧
      (jitterPush jb s).1.read_index = (jb.read_index + 1) % JITTER_BUFFER_SIZE ∧
      (jitterPush jb s).2 = 1) ∧
    (∀ (jb : JitterBuffer) (s : List ℚ), jb.frame_count < JITTER_BUFFER_SIZE →
      (jitterPush jb s).2 = 0) := by
  have hstep : ∀ (jb : JitterBuffer) (s : List ℚ),
      jb.frame_count ≤ JITTER_BUFFER_SIZE →
      (jitterPush jb s).1.frame_count ≤ JITTER_BUFFER_SIZE := by
    intro jb s h
    simp only [jitterPush, JITTER_BUFFER_SIZE] at *
    split <;> simp <;> omega
  have hfold : ∀ (l : List (List ℚ)) (jb : JitterBuffer),
      jb.frame_count ≤ JITTER_BUFFER_SIZE →
      (foldPush jb l).frame_count ≤ JITTER_BUFFER_SIZE := by
    intro l
    induction l with
    | nil => intro jb h; exact h
    | cons s rest ih =>
      intro jb h
      exact ih (jitterPush jb s).1 (hstep jb s h)
  refine ⟨hstep, fun jb pushes h k => hfold (pushes.take k) jb h, ?_, ?_⟩
  · intro jb s h
    refine ⟨?_, ?_, ?_⟩ <;>
      simp only [jitterPush, JITTER_BUFFER_SIZE] at * <;>
      rw [if_pos (by omega)] <;> simp <;> omega
  · intro jb s h
    simp only [jitterPush, JITTER_BUFFER_SIZE] at *
    rw [if_neg (by omega)]

theorem C6_jitter_capacity_witness :
    c6full.frame_count = JITTER_BUFFER_SIZE ∧
    (jitterPush c6full []).1.frame_count = JITTER_BUFFER_SIZE ∧
    (jitterPush c6full []).1.read_index = (c6full.read_index + 1) % JITTER_BUFFER_SIZE ∧
    (jitterPush c6full []).2 = 1 :=
  ⟨rfl, C6_jitter_capacity.2.2.1 c6full [] rfl⟩

/-- C8: a received audio datagram for an active channel whose non-zero
32-byte key fails AES-GCM authentication leaves the channel list (and thus
the channel's jitter buffer) unchanged and increments that channel's
decrypt-failure counter by exactly 1; the handler is total, so the receive
loop continues. -/
theorem C8_decrypt_failure_isolation
    (opusDecode : List Nat → Option (List ℤ))
    (channels : List UdpChannel) (stats : UdpStats) (pkt : UdpPacket) (i : Nat)
    (hty : pkt.msgType = "audio")
    (hfind : channels.findIdx? (fun ch => ch.active ∧ ch.channel_id = pkt.channel_id) = some i)
    (hdata : (decode_base64 pkt.data).length ≠ 0)
    (hkz : ((channels.getD i UdpChannel.blank).key.all fun b => b = 0) = false)
    (hdec : decrypt_data (decode_base64 pkt.data) (channels.getD i UdpChannel.blank).key = none) :
    (udp_handle_packet opusDecode channels stats pkt).1 = channels ∧
    (udp_handle_packet opusDecode channels stats pkt).2.decrypt_fail_count =
      stats.decrypt_fail_count.set i (stats.decrypt_fail_count.getD i 0 + 1) ∧
    (udp_handle_packet opusDecode channels stats pkt).2.jitter_drop_count =
      stats.jitter_drop_count := by
  simp only [udp_handle_packet, hty, hfind, hkz, hdec]
  simp [hdata]

theorem C8_decrypt_failure_isolation_witness :
    ([c8channel].findIdx? (fun ch => ch.active ∧ ch.channel_id = c8packet.channel_id) =
        some 0 ∧
      decrypt_data (decode_base64 c8packet.data)
        (([c8channel].getD 0 UdpChannel.blank)).key = none) ∧
    (udp_handle_packet (fun _ => none) [c8channel] c8stats c8packet).1 = [c8channel] ∧
    (udp_handle_packet (fun _ => none) [c8channel] c8stats c8packet).2.decrypt_fail_count =
      c8stats.decrypt_fail_count.set 0 (c8stats.decrypt_fail_count.getD 0 0 + 1) := by
  have h := C8_decrypt_failure_isolation (fun _ => none) [c8channel] c8stats c8packet 0
    rfl (by decide) (by decide) (by decide) (by decide)
  exact ⟨⟨by decide, by decide⟩, h.1, h.2.1⟩

theorem toneFireState_last (d : ToneDefinition) (now : ℤ) (st : ToneDetectionState) :
    (toneFireState d now st).last_detect_time = now := rfl

theorem toneDefsLoop_none_state (now : ℤ) (lA lB aF bF : ℚ) :
    ∀ (defs : List ToneDefinition) (st : ToneDetectionState),
      (toneDefsLoop now lA lB aF bF defs st).2 = none →
      (toneDefsLoop now lA lB aF bF defs st).1 = st := by
  intro defs
  induction defs with
  | nil => intro st _; rfl
  | cons d rest ih =>
    intro st h
    simp only [toneDefsLoop] at h ⊢
    split_ifs at h ⊢ with h1 h2 h3
    · exact ih st h
    · exact ih st h
    · exact ih st h

theorem toneDefsLoop_fire (now : ℤ) (lA lB aF bF : ℚ) :
    ∀ (defs : List ToneDefinition) (st : ToneDetectionState) (d : ToneDefinition),
      (toneDefsLoop now lA lB aF bF defs st).2 = some d →
      (toneDefsLoop now lA lB aF bF defs st).1 = toneFireState d now st ∧
      d ∈ defs ∧ d.valid = true ∧
      max d.tone_a_length_ms d.tone_b_length_ms < now - st.last_detect_time := by
  intro defs
  induction defs with
  | nil => intro st d h; simp [toneDefsLoop] at h
  | cons e rest ih =>
    intro st d h
    simp only [toneDefsLoop] at h ⊢
    split_ifs at h ⊢ with h1 h2 h3
    · have r := ih st d h
      exact ⟨r.1, List.mem_cons_of_mem e r.2.1, r.2.2⟩
    · have r := ih st d h
      exact ⟨r.1, List.mem_cons_of_mem e r.2.1, r.2.2⟩
    · simp only [Option.some.injEq] at h
      subst h
      exact ⟨rfl, List.mem_cons_self e rest, by simpa using h1, h3.2.2⟩
    · have r := ih st d h
      exact ⟨r.1, List.mem_cons_of_mem e r.2.1, r.2.2⟩

theorem toneDefsLoop_blocked (now : ℤ) (lA lB aF bF : ℚ) :
    ∀ (defs : List ToneDefinition) (st : ToneDetectionState),
      st.last_detect_time = now →
      (∀ d ∈ defs, d.valid = true → 0 ≤ max d.tone_a_length_ms d.tone_b_length_ms) →
      toneDefsLoop now lA lB aF bF defs st = (st, none) := by
  intro defs
  induction defs with
  | nil => intro st _ _; rfl
  | cons e rest ih =>
    intro st hl hpos
    have hrest : ∀ d ∈ rest, d.valid = true →
        0 ≤ max d.tone_a_length_ms d.tone_b_length_ms :=
      fun d hd => hpos d (List.mem_cons_of_mem e hd)
    simp only [toneDefsLoop]
    split_ifs with h1 h2 h3
    · exact ih st hl hrest
    · exact ih st hl hrest
    · exfalso
      have he : e.valid = true := by simpa using h1
      have := hpos e (List.mem_cons_self e rest) he
      rw [hl] at h3
      omega
    · exact ih st hl hrest

theorem toneGroupAnalyze_none (freqEst : List ℚ → ℚ) (now : ℤ)
    (defs : List ToneDefinition) (buf : List ℚ) (st : ToneDetectionState) (g : ℚ × ℚ)
    (h : (toneGroupAnalyze freqEst now defs buf st g).2.1 = none) :
    (toneGroupAnalyze freqEst now defs buf st g).1 = st := by
  simp only [toneGroupAnalyze] at h ⊢
  split_ifs at h ⊢
  · rfl
  · rfl
  · rfl
  · exact toneDefsLoop_none_state now g.1 g.2 _ _ defs st h

theorem toneGroupAnalyze_fire (freqEst : List ℚ → ℚ) (now : ℤ)
    (defs : List ToneDefinition) (buf : List ℚ) (st : ToneDetectionState) (g : ℚ × ℚ)
    (d : ToneDefinition)
    (h : (toneGroupAnalyze freqEst now defs buf st g).2.1 = some d) :
    (toneGroupAnalyze freqEst now defs buf st g).1 = toneFireState d now st ∧
    d ∈ defs ∧ d.valid = true ∧
    max d.tone_a_length_ms d.tone_b_length_ms < now - st.last_detect_time := by
  simp only [toneGroupAnalyze] at h ⊢
  split_ifs at h ⊢
  · exact toneDefsLoop_fire now g.1 g.2 _ _ defs st d h

theorem toneGroupAnalyze_blocked (freqEst : List ℚ → ℚ) (now : ℤ)
    (defs : List ToneDefinition) (buf : List ℚ) (st : ToneDetectionState) (g : ℚ × ℚ)
    (hl : st.last_detect_time = now)
    (hpos : ∀ d ∈ defs, d.valid = true → 0 ≤ max d.tone_a_length_ms d.tone_b_length_ms) :
    (toneGroupAnalyze freqEst now defs buf st g).1 = st ∧
    (toneGroupAnalyze freqEst now defs buf st g).2.1 = none := by
  simp only [toneGroupAnalyze]
  split_ifs
  · exact ⟨rfl, rfl⟩
  · exact ⟨rfl, rfl⟩
  · exact ⟨rfl, rfl⟩
  · rw [toneDefsLoop_blocked now g.1 g.2 _ _ defs st hl hpos]
    exact ⟨rfl, rfl⟩

theorem toneGroupsFold_after_fire (freqEst : List ℚ → ℚ) (now : ℤ)
    (defs : List ToneDefinition) (buf : List ℚ)
    (hpos : ∀ d ∈ defs, d.valid = true → 0 ≤ max d.tone_a_length_ms d.tone_b_length_ms) :
    ∀ (gs : List (ℚ × ℚ)) (s : ToneDetectionState)
      (fl : List ToneDefinition) (gl : List (ℚ × ℚ)), s.last_detect_time = now →
      (gs.foldl (toneGroupStep freqEst now defs buf) (s, fl, gl)).1 = s ∧
      (gs.foldl (toneGroupStep freqEst now defs buf) (s, fl, gl)).2.1 = fl := by
  intro gs
  induction gs with
  | nil => intro s fl gl _; exact ⟨rfl, rfl⟩
  | cons g rest ih =>
    intro s fl gl hl
    have hb := toneGroupAnalyze_blocked freqEst now defs buf s g hl hpos
    simp only [List.foldl_cons, toneGroupStep, hb.1, hb.2, Option.toList_none,
      List.append_nil]
    exact ih s fl _ hl

theorem toneGroupsFold_spec (freqEst : List ℚ → ℚ) (now : ℤ)
    (defs : List ToneDefinition) (buf : List ℚ)
    (hpos : ∀ d ∈ defs, d.valid = true → 0 ≤ max d.tone_a_length_ms d.tone_b_length_ms) :
    ∀ (gs : List (ℚ × ℚ)) (s : ToneDetectionState) (gl : List (ℚ × ℚ)),
      ((gs.foldl (toneGroupStep freqEst now defs buf) (s, [], gl)).2.1 = [] ∧
        (gs.foldl (toneGroupStep freqEst now defs buf) (s, [], gl)).1 = s) ∨
      ∃ d, (gs.foldl (toneGroupStep freqEst now defs buf) (s, [], gl)).2.1 = [d] ∧
        (gs.foldl (toneGroupStep freqEst now defs buf) (s, [], gl)).1 =
          toneFireState d now s ∧
        d ∈ defs ∧ d.valid = true ∧
        max d.tone_a_length_ms d.tone_b_length_ms < now - s.last_detect_time := by
  intro gs
  induction gs with
  | nil => intro s gl; exact Or.inl ⟨rfl, rfl⟩
  | cons g rest ih =>
    intro s gl
    rcases hopt : (toneGroupAnalyze freqEst now defs buf s g).2.1 with _ | d
    · have hst := toneGroupAnalyze_none freqEst now defs buf s g hopt
      simp only [List.foldl_cons, toneGroupStep, hst, hopt, Option.toList_none,
        List.append_nil]
      exact ih s _
    · have hf := toneGroupAnalyze_fire freqEst now defs buf s g d hopt
      simp only [List.foldl_cons, toneGroupStep, hf.1, hopt, Option.toList_some,
        List.nil_append]
      have hrest := fun gl2 => toneGroupsFold_after_fire freqEst now defs buf hpos rest
        (toneFireState d now s) [d] gl2 (toneFireState_last d now s)
      rw [(hrest _).1, (hrest _).2]
      exact Or.inr ⟨d, rfl, rfl, hf.2⟩

theorem toneGroupsPhase_fire_spec (freqEst : List ℚ → ℚ) (now : ℤ)
    (defs : List ToneDefinition) (buf : List ℚ)
    (hpos : ∀ d ∈ defs, d.valid = true → 0 ≤ max d.tone_a_length_ms d.tone_b_length_ms)
    (groups : List (ℚ × ℚ)) (st : ToneDetectionState) :
    (toneGroupsPhase freqEst now defs buf st groups).2.1.length ≤ 1 ∧
    ((toneGroupsPhase freqEst now defs buf st groups).2.1 = [] →
      (toneGroupsPhase freqEst now defs buf st groups).1 = st) ∧
    (∀ d, (toneGroupsPhase freqEst now defs buf st groups).2.1 = [d] →
      (toneGroupsPhase freqEst now defs buf st groups).1 = toneFireState d now st ∧
      d ∈ defs ∧ d.valid = true ∧
      max d.tone_a_length_ms d.tone_b_length_ms < now - st.last_detect_time) := by
  have hmain := toneGroupsFold_spec freqEst now defs buf hpos groups st []
  simp only [toneGroupsPhase]
  rcases hmain with ⟨h1, h2⟩ | ⟨d, h1, h2, h3, h4, h5⟩
  · refine ⟨by rw [h1]; simp, fun _ => h2, ?_⟩
    intro d hd
    rw [h1] at hd
    exact absurd hd (by simp)
  · refine ⟨by rw [h1]; simp, ?_, ?_⟩
    · intro hnil
      rw [h1] at hnil
      exact absurd hnil (by simp)
    · intro e he
      rw [h1] at he
      injection he with he _
      subst he
      exact ⟨h2, h3, h4, h5⟩

theorem toneWakeBufferUpdate_fields (samples : List ℚ) (n : Nat)
    (st : ToneDetectionState) :
    (toneWakeBufferUpdate samples n st).last_detect_time = st.last_detect_time ∧
    (toneWakeBufferUpdate samples n st).total_detections = st.total_detections ∧
    (toneWakeBufferUpdate samples n st).active = st.active ∧
    (toneWakeBufferUpdate samples n st).recording_active = st.recording_active := by
  unfold toneWakeBufferUpdate
  exact ⟨rfl, rfl, rfl, rfl⟩

theorem toneFireState_fields (d : ToneDefinition) (now : ℤ) (st : ToneDetectionState) :
    (toneFireState d now st).passthrough_active = true ∧
    (toneFireState d now st).passthrough_mode = true ∧
    (toneFireState d now st).total_detections = st.total_detections + 1 ∧
    (toneFireState d now st).passthrough_tone_a_freq = d.tone_a_freq ∧
    (toneFireState d now st).passthrough_tone_b_freq = d.tone_b_freq ∧
    (toneFireState d now st).audio_buffer = st.audio_buffer ∧
    (toneFireState d now st).active = st.active := by
  unfold toneFireState trigger_tone_passthrough
  split_ifs
  · exact ⟨rfl, rfl, rfl, rfl, rfl, rfl, rfl⟩
  · exact ⟨rfl, rfl, rfl, rfl, rfl, rfl, rfl⟩

theorem process_audio_inactive (freqEst : List ℚ → ℚ) (now : ℤ) (samples : List ℚ)
    (n : Nat) (defs : List ToneDefinition) (st : ToneDetectionState)
    (ha : st.active = false) :
    process_audio_python_approach freqEst now samples n defs st = ⟨st, [], [], false⟩ := by
  simp only [process_audio_python_approach]
  rw [if_pos ha]

theorem process_audio_small_buffer (freqEst : List ℚ → ℚ) (now : ℤ) (samples : List ℚ)
    (n : Nat) (defs : List ToneDefinition) (st : ToneDetectionState)
    (ha : st.active = true)
    (hb : (toneWakeBufferUpdate samples n st).audio_buffer.length < SAMPLE_RATE) :
    process_audio_python_approach freqEst now samples n defs st =
      ⟨toneWakeBufferUpdate samples n st, [], [], false⟩ := by
  simp only [process_audio_python_approach]
  rw [if_neg (by simp [ha]), if_pos hb]

theorem process_audio_no_groups (freqEst : List ℚ → ℚ) (now : ℤ) (samples : List ℚ)
    (n : Nat) (defs : List ToneDefinition) (st : ToneDetectionState)
    (ha : st.active = true)
    (hb : ¬ (toneWakeBufferUpdate samples n st).audio_buffer.length < SAMPLE_RATE)
    (hg : uniqueLengthGroups defs = []) :
    process_audio_python_approach freqEst now samples n defs st =
      ⟨toneWakeBufferUpdate samples n st, [], [], false⟩ := by
  simp only [process_audio_python_approach]
  rw [if_neg (by simp [ha]), if_neg hb, if_pos hg]

theorem process_audio_main_eq (freqEst : List ℚ → ℚ) (now : ℤ) (samples : List ℚ)
    (n : Nat) (defs : List ToneDefinition) (st : ToneDetectionState)
    (ha : st.active = true)
    (hb : ¬ (toneWakeBufferUpdate samples n st).audio_buffer.length < SAMPLE_RATE)
    (hg : uniqueLengthGroups defs ≠ []) :
    process_audio_python_approach freqEst now samples n defs st =
      ⟨toneTimerExpiry now (toneWakeMid freqEst now samples n defs st).1,
       (toneWakeMid freqEst now samples n defs st).2.1,
       (toneWakeMid freqEst now samples n defs st).2.2,
       (toneTimerExpiry now
         (toneWakeMid freqEst now samples n defs st).1).passthrough_active⟩ := by
  simp only [process_audio_python_approach, toneWakeMid]
  rw [if_neg (by simp [ha]), if_neg hb, if_neg hg]

/-- C2 (amended): when a tone definition in a length group matches both
segment estimates and passes debounce, the detector records now as the
shared last-detection time, increments the counter, and invokes passthrough
activation, breaking out of that group's definitions loop; the wake then
still examines the remaining length groups, but the shared debounce blocks
any further detection, so at most one detection fires per wake (for
definitions with non-negative tone lengths); the timer-expiry check then
runs on the resulting state. -/
theorem C2_single_detection_per_wake (freqEst : List ℚ → ℚ) (now : ℤ)
    (samples : List ℚ) (n : Nat) (defs : List ToneDefinition) (st : ToneDetectionState)
    (hpos : ∀ d ∈ defs, d.valid = true → 0 ≤ max d.tone_a_length_ms d.tone_b_length_ms) :
    (process_audio_python_approach freqEst now samples n defs st).fired.length ≤ 1 ∧
    (∀ d, (process_audio_python_approach freqEst now samples n defs st).fired = [d] →
      d ∈ defs ∧ d.valid = true ∧
      (toneWakeMid freqEst now samples n defs st).1 =
        toneFireState d now (toneWakeBufferUpdate samples n st) ∧
      (toneWakeMid freqEst now samples n defs st).1.passthrough_active = true ∧
      (toneWakeMid freqEst now samples n defs st).1.passthrough_mode = true ∧
      (toneWakeMid freqEst now samples n defs st).1.last_detect_time = now ∧
      (toneWakeMid freqEst now samples n defs st).1.total_detections =
        st.total_detections + 1 ∧
      (toneWakeMid freqEst now samples n defs st).1.passthrough_tone_a_freq =
        d.tone_a_freq ∧
      (toneWakeMid freqEst now samples n defs st).1.passthrough_tone_b_freq =
        d.tone_b_freq ∧
      (process_audio_python_approach freqEst now samples n defs st).state =
        toneTimerExpiry now (toneWakeMid freqEst now samples n defs st).1) := by
  by_cases ha : st.active = true
  · by_cases hb : (toneWakeBufferUpdate samples n st).audio_buffer.length < SAMPLE_RATE
    · rw [process_audio_small_buffer freqEst now samples n defs st ha hb]
      exact ⟨by simp, fun d hd => absurd hd (by simp)⟩
    · by_cases hg : uniqueLengthGroups defs = []
      · rw [process_audio_no_groups freqEst now samples n defs st ha hb hg]
        exact ⟨by simp, fun d hd => absurd hd (by simp)⟩
      · rw [process_audio_main_eq freqEst now samples n defs st ha hb hg]
        have hspec := toneGroupsPhase_fire_spec freqEst now defs
          (toneWakeBufferUpdate samples n st).audio_buffer hpos
          (uniqueLengthGroups defs) (toneWakeBufferUpdate samples n st)
        have hmid : toneWakeMid freqEst now samples n defs st =
            toneGroupsPhase freqEst now defs
              (toneWakeBufferUpdate samples n st).audio_buffer
              (toneWakeBufferUpdate samples n st) (uniqueLengthGroups defs) := rfl
        refine ⟨by rw [hmid]; exact hspec.1, ?_⟩
        intro d hd
        rw [hmid] at hd ⊢
        have hone := hspec.2.2 d hd
        have hff := toneFireState_fields d now (toneWakeBufferUpdate samples n st)
        have hbu := toneWakeBufferUpdate_fields samples n st
        refine ⟨hone.2.1, hone.2.2.1, hone.1, ?_, ?_, ?_, ?_, ?_, ?_, rfl⟩
        · rw [hone.1]; exact hff.1
        · rw [hone.1]; exact hff.2.1
        · rw [hone.1]; exact toneFireState_last d now _
        · rw [hone.1, hff.2.2.1, hbu.2.1]
        · rw [hone.1]; exact hff.2.2.2.1
        · rw [hone.1]; exact hff.2.2.2.2.1
  · have ha' : st.active = false := by
      cases h : st.active
      · rfl
      · exact absurd h ha
    rw [process_audio_inactive freqEst now samples n defs st ha']
    exact ⟨by simp, fun d hd => absurd hd (by simp)⟩

/-- C10: the detector keeps one shared last-detection timestamp for all
definitions: any detection that fires in a wake requires the wall time since
the shared last_detect_time at wake entry to exceed the firing definition's
max(tone_a_length_ms, tone_b_length_ms); a detection of one definition
therefore suppresses every definition for that window. -/
theorem C10_shared_debounce (freqEst : List ℚ → ℚ) (now : ℤ)
    (samples : List ℚ) (n : Nat) (defs : List ToneDefinition) (st : ToneDetectionState)
    (hpos : ∀ d ∈ defs, d.valid = true → 0 ≤ max d.tone_a_length_ms d.tone_b_length_ms) :
    ∀ d ∈ (process_audio_python_approach freqEst now samples n defs st).fired,
      max d.tone_a_length_ms d.tone_b_length_ms < now - st.last_detect_time := by
  by_cases ha : st.active = true
  · by_cases hb : (toneWakeBufferUpdate samples n st).audio_buffer.length < SAMPLE_RATE
    · rw [process_audio_small_buffer freqEst now samples n defs st ha hb]
      intro d hd
      exact absurd hd (by simp)
    · by_cases hg : uniqueLengthGroups defs = []
      · rw [process_audio_no_groups freqEst now samples n defs st ha hb hg]
        intro d hd
        exact absurd hd (by simp)
      · rw [process_audio_main_eq freqEst now samples n defs st ha hb hg]
        intro d hd
        have hspec := toneGroupsPhase_fire_spec freqEst now defs
          (toneWakeBufferUpdate samples n st).audio_buffer hpos
          (uniqueLengthGroups defs) (toneWakeBufferUpdate samples n st)
        have hmid : toneWakeMid freqEst now samples n defs st =
            toneGroupsPhase freqEst now defs
              (toneWakeBufferUpdate samples n st).audio_buffer
              (toneWakeBufferUpdate samples n st) (uniqueLengthGroups defs) := rfl
        simp only [hmid] at hd
        rcases hl : (toneGroupsPhase freqEst now defs
            (toneWakeBufferUpdate samples n st).audio_buffer
            (toneWakeBufferUpdate samples n st) (uniqueLengthGroups defs)).2.1 with _ | ⟨e, tl⟩
        · rw [hl] at hd
          exact absurd hd (by simp)
        · have hlen := hspec.1
          rw [hl] at hlen
          have htl : tl = [] := by
            cases tl
            · rfl
            · simp at hlen
          subst htl
          have hone := hspec.2.2 e hl
          rw [hl] at hd
          have hde : d = e := by simpa using hd
          subst hde
          have := hone.2.2.2
          rwa [(toneWakeBufferUpdate_fields samples n st).1] at this
  · have ha' : st.active = false := by
      cases h : st.active
      · rfl
      · exact absurd h ha
    rw [process_audio_inactive freqEst now samples n defs st ha']
    intro d hd
    exact absurd hd (by simp)

/-- C3 (amended): passthrough_active becomes true at the moment a detection
fires; the recording timer is armed (start := now, duration :=
record_length_ms) only when the definition's record_length_ms is positive —
otherwise the recording state is left unchanged and nothing schedules a
deactivation; the end-of-wake expiry check, run on every wake that reaches
group analysis, clears passthrough_active and recording_active exactly at
the first wake whose elapsed time since recording_start_time has reached
recording_duration_ms. -/
theorem C3_passthrough_lifetime :
    (∀ (d : ToneDefinition) (now : ℤ) (st : ToneDetectionState),
      (trigger_tone_passthrough d now st).passthrough_active = true ∧
      (trigger_tone_passthrough d now st).passthrough_mode = true ∧
      (0 < d.record_length_ms →
        (trigger_tone_passthrough d now st).recording_active = true ∧
        (trigger_tone_passthrough d now st).recording_start_time = now ∧
        (trigger_tone_passthrough d now st).recording_duration_ms =
          d.record_length_ms) ∧
      (d.record_length_ms ≤ 0 →
        (trigger_tone_passthrough d now st).recording_active = st.recording_active ∧
        (trigger_tone_passthrough d now st).recording_start_time =
          st.recording_start_time ∧
        (trigger_tone_passthrough d now st).recording_duration_ms =
          st.recording_duration_ms)) ∧
    (∀ (now : ℤ) (st : ToneDetectionState), st.recording_active = true →
      (st.recording_duration_ms ≤ now - st.recording_start_time →
        (toneTimerExpiry now st).passthrough_active = false ∧
        (toneTimerExpiry now st).recording_active = false ∧
        (toneTimerExpiry now st).passthrough_mode = false) ∧
      (now - st.recording_start_time < st.recording_duration_ms →
        toneTimerExpiry now st = st)) ∧
    (∀ (freqEst : List ℚ → ℚ) (now : ℤ) (samples : List ℚ) (n : Nat)
      (defs : List ToneDefinition) (st : ToneDetectionState),
      st.active = true →
      ¬ (toneWakeBufferUpdate samples n st).audio_buffer.length < SAMPLE_RATE →
      uniqueLengthGroups defs ≠ [] →
      (process_audio_python_approach freqEst now samples n defs st).state =
        toneTimerExpiry now (toneWakeMid freqEst now samples n defs st).1) := by
  refine ⟨?_, ?_, ?_⟩
  · intro d now st
    unfold trigger_tone_passthrough
    split_ifs with hr
    · exact ⟨rfl, rfl, fun _ => ⟨rfl, rfl, rfl⟩, fun h => absurd hr (by omega)⟩
    · exact ⟨rfl, rfl, fun h => absurd h hr, fun _ => ⟨rfl, rfl, rfl⟩⟩
  · intro now st hrec
    unfold toneTimerExpiry
    rw [if_pos hrec]
    constructor
    · intro hel
      rw [if_pos (by omega)]
      exact ⟨rfl, rfl, rfl⟩
    · intro hel
      rw [if_neg (by omega)]
  · intro freqEst now samples n defs st ha hb hg
    rw [process_audio_main_eq freqEst now samples n defs st ha hb hg]

theorem ratTrunc_eq_of_nonneg {q : ℚ} {n : ℤ} (h0 : 0 ≤ n) (h1 : (n : ℚ) ≤ q)
    (h2 : q < (n : ℚ) + 1) : ratTrunc q = n := by
  have hq : 0 ≤ q := le_trans (by exact_mod_cast h0) h1
  rw [ratTrunc, if_pos hq, Int.floor_eq_iff]
  exact ⟨h1, h2⟩

theorem wakeCX_groups : uniqueLengthGroups toneDefsCX = [gA, gB] := by
  norm_num [uniqueLengthGroups, toneLengthPairs, dedupKeepFirst, insertByTotalDesc,
    toneDefsCX, toneDefA, toneDefB, gA, gB]

theorem wakeCX_defsLoopA (now : ℤ) (st : ToneDetectionState)
    (hl : st.last_detect_time + 400 < now) :
    toneDefsLoop now gA.1 gA.2 700 1000 toneDefsCX st =
      (toneFireState toneDefA now st, some toneDefA) := by
  simp only [toneDefsCX, toneDefsLoop, toneDefA, gA]
  norm_num
  intro hcon
  exact absurd hl (by omega)

theorem wakeCX_defsLoopB (now : ℤ) (st : ToneDetectionState) :
    toneDefsLoop now gB.1 gB.2 0 0 toneDefsCX st = (st, none) := by
  simp only [toneDefsCX, toneDefsLoop, toneDefA, toneDefB, gB]
  norm_num

theorem wakeCX_groupA (now : ℤ) (st : ToneDetectionState)
    (hl : st.last_detect_time + 400 < now) :
    toneGroupAnalyze freqOracle now toneDefsCX (List.replicate 48000 (0 : ℚ)) st gA =
      (toneFireState toneDefA now st, some toneDefA, true) := by
  have h1 : ratTrunc ((gA.1 + gA.2) * (SAMPLE_RATE : ℚ)) = 33600 :=
    ratTrunc_eq_of_nonneg (by norm_num) (by norm_num [gA, SAMPLE_RATE])
      (by norm_num [gA, SAMPLE_RATE])
  have h2 : ratTrunc (gA.2 * (SAMPLE_RATE : ℚ)) = 14400 :=
    ratTrunc_eq_of_nonneg (by norm_num) (by norm_num [gA, SAMPLE_RATE])
      (by norm_num [gA, SAMPLE_RATE])
  unfold toneGroupAnalyze
  rw [h1, h2, List.length_replicate]
  norm_num [List.drop_replicate, List.take_replicate, freqOracle,
    show Int.toNat 33600 = 33600 from rfl, show Int.toNat 14400 = 14400 from rfl]
  have h := wakeCX_defsLoopA now st hl
  exact ⟨by rw [h], by rw [h]⟩

theorem wakeCX_groupB (now : ℤ) (st : ToneDetectionState) :
    toneGroupAnalyze freqOracle now toneDefsCX (List.replicate 48000 (0 : ℚ)) st gB =
      (st, none, true) := by
  have h1 : ratTrunc ((gB.1 + gB.2) * (SAMPLE_RATE : ℚ)) = 16800 :=
    ratTrunc_eq_of_nonneg (by norm_num) (by norm_num [gB, SAMPLE_RATE])
      (by norm_num [gB, SAMPLE_RATE])
  have h2 : ratTrunc (gB.2 * (SAMPLE_RATE : ℚ)) = 7200 :=
    ratTrunc_eq_of_nonneg (by norm_num) (by norm_num [gB, SAMPLE_RATE])
      (by norm_num [gB, SAMPLE_RATE])
  unfold toneGroupAnalyze
  rw [h1, h2, List.length_replicate]
  norm_num [List.drop_replicate, List.take_replicate, freqOracle,
    show Int.toNat 16800 = 16800 from rfl, show Int.toNat 7200 = 7200 from rfl]
  have h := wakeCX_defsLoopB now st
  exact ⟨by rw [h], by rw [h]⟩

theorem toneWakeBufferUpdate_nil (st : ToneDetectionState)
    (hlen : st.audio_buffer.length ≤ 480000) :
    toneWakeBufferUpdate [] 0 st = st := by
  unfold toneWakeBufferUpdate
  simp only [List.take_nil, List.append_nil]
  rw [if_neg (by omega)]

theorem toneFireState_recording_nonpos (d : ToneDefinition) (now : ℤ)
    (st : ToneDetectionState) (h : d.record_length_ms ≤ 0) :
    (toneFireState d now st).recording_active = st.recording_active := by
  simp only [toneFireState, trigger_tone_passthrough]
  rw [if_neg (show ¬ 0 < d.record_length_ms by omega)]

theorem toneTimerExpiry_inactive (now : ℤ) (s : ToneDetectionState)
    (h : s.recording_active = false) : toneTimerExpiry now s = s := by
  unfold toneTimerExpiry
  rw [if_neg (by simp [h])]

theorem wakeCX_wake (now : ℤ) (st : ToneDetectionState)
    (ha : st.active = true)
    (hbuf : st.audio_buffer = List.replicate 48000 0)
    (hl : st.last_detect_time + 400 < now)
    (hrec : st.recording_active = false) :
    process_audio_python_approach freqOracle now [] 0 toneDefsCX st =
      ⟨toneFireState toneDefA now st, [toneDefA], [gA, gB], true⟩ := by
  have hb1 : toneWakeBufferUpdate [] 0 st = st :=
    toneWakeBufferUpdate_nil st (by rw [hbuf, List.length_replicate]; omega)
  have hblen : ¬ (toneWakeBufferUpdate [] 0 st).audio_buffer.length < SAMPLE_RATE := by
    rw [hb1, hbuf, List.length_replicate]
    norm_num [SAMPLE_RATE]
  have hg : uniqueLengthGroups toneDefsCX ≠ [] := by
    rw [wakeCX_groups]
    simp
  rw [process_audio_main_eq freqOracle now [] 0 toneDefsCX st ha hblen hg]
  have hmid : toneWakeMid freqOracle now [] 0 toneDefsCX st =
      (toneFireState toneDefA now st, [toneDefA], [gA, gB]) := by
    unfold toneWakeMid
    rw [hb1, wakeCX_groups]
    show toneGroupsPhase freqOracle now toneDefsCX st.audio_buffer st [gA, gB] =
      (toneFireState toneDefA now st, [toneDefA], [gA, gB])
    rw [hbuf]
    simp only [toneGroupsPhase, List.foldl_cons, List.foldl_nil, toneGroupStep,
      wakeCX_groupA now st hl, wakeCX_groupB]
    simp
  rw [hmid]
  have hexp : toneTimerExpiry now (toneFireState toneDefA now st) =
      toneFireState toneDefA now st := by
    apply toneTimerExpiry_inactive
    rw [toneFireState_recording_nonpos toneDefA now st (by norm_num [toneDefA])]
    exact hrec
  rw [hexp, (toneFireState_fields toneDefA now st).1]

theorem toneDefsCX_nonneg : ∀ d ∈ toneDefsCX, d.valid = true →
    0 ≤ max d.tone_a_length_ms d.tone_b_length_ms := by
  intro d hd _
  simp only [toneDefsCX, List.mem_cons, List.mem_singleton] at hd
  rcases hd with rfl | rfl | h
  · simp only [toneDefA]
    exact le_max_of_le_left (by norm_num)
  · simp only [toneDefB]
    exact le_max_of_le_left (by norm_num)
  · exact absurd h (List.not_mem_nil d)

/-- C2 counterexample: in the concrete scenario the first (longest) length
group fires a detection, yet the same wake still analyzes the second length
group afterwards — the break at src/tone_detect.py:326 leaves only the
inner definitions loop, so further length groups are processed in that
wake, contrary to the claim. -/
theorem C2_counterexample :
    (process_audio_python_approach freqOracle 0 [] 0 toneDefsCX toneStateCX).fired =
      [toneDefA] ∧
    (process_audio_python_approach freqOracle 0 [] 0 toneDefsCX toneStateCX).analyzed =
      [gA, gB] := by
  rw [wakeCX_wake 0 toneStateCX rfl rfl (by norm_num : (-1000000 : ℤ) + 400 < 0) rfl]
  exact ⟨rfl, rfl⟩

theorem C2_single_detection_per_wake_witness :
    (∀ d ∈ toneDefsCX, d.valid = true →
      0 ≤ max d.tone_a_length_ms d.tone_b_length_ms) ∧
    (process_audio_python_approach freqOracle 0 [] 0 toneDefsCX toneStateCX).fired.length
      ≤ 1 :=
  ⟨toneDefsCX_nonneg,
   (C2_single_detection_per_wake freqOracle 0 [] 0 toneDefsCX toneStateCX
      toneDefsCX_nonneg).1⟩

/-- C3 counterexample: toneDefA has record_length_ms = 0, so its detection
sets passthrough_active without arming the recording timer; the detector
invocation 1000000 ms after activation (far beyond record_length_ms plus
one detector tick) fires again and still leaves passthrough_active true —
it is never cleared. -/
theorem C3_counterexample :
    toneDefA.record_length_ms = 0 ∧
    process_audio_python_approach freqOracle 0 [] 0 toneDefsCX toneStateCX =
      ⟨toneFireState toneDefA 0 toneStateCX, [toneDefA], [gA, gB], true⟩ ∧
    (toneFireState toneDefA 0 toneStateCX).passthrough_active = true ∧
    (toneFireState toneDefA 0 toneStateCX).recording_active = false ∧
    process_audio_python_approach freqOracle 1000000 [] 0 toneDefsCX
        (toneFireState toneDefA 0 toneStateCX) =
      ⟨toneFireState toneDefA 1000000 (toneFireState toneDefA 0 toneStateCX),
       [toneDefA], [gA, gB], true⟩ ∧
    (toneFireState toneDefA 1000000
      (toneFireState toneDefA 0 toneStateCX)).passthrough_active = true := by
  have hfields := toneFireState_fields toneDefA 0 toneStateCX
  have hrec1 : (toneFireState toneDefA 0 toneStateCX).recording_active = false := by
    rw [toneFireState_recording_nonpos toneDefA 0 toneStateCX (by norm_num [toneDefA])]
    rfl
  have h1 := wakeCX_wake 0 toneStateCX rfl rfl
    (by norm_num : (-1000000 : ℤ) + 400 < 0) rfl
  have h2 := wakeCX_wake 1000000 (toneFireState toneDefA 0 toneStateCX)
    (by rw [hfields.2.2.2.2.2.2]; rfl)
    (by rw [hfields.2.2.2.2.2.1]; rfl)
    (by rw [toneFireState_last]; norm_num)
    hrec1
  exact ⟨rfl, h1, hfields.1, hrec1, h2,
    (toneFireState_fields toneDefA 1000000 (toneFireState toneDefA 0 toneStateCX)).1⟩

theorem C3_passthrough_lifetime_witness :
    (toneStateRec.recording_active = true ∧
      toneStateRec.recording_duration_ms ≤ 5000 - toneStateRec.recording_start_time) ∧
    (toneTimerExpiry 5000 toneStateRec).passthrough_active = false ∧
    (toneTimerExpiry 5000 toneStateRec).recording_active = false := by
  have h := (C3_passthrough_lifetime.2.1 5000 toneStateRec rfl).1
    (by norm_num : (100 : ℤ) ≤ 5000 - 0)
  exact ⟨⟨rfl, (by norm_num : (100 : ℤ) ≤ 5000 - 0)⟩, h.1, h.2.1⟩

theorem C10_shared_debounce_witness :
    (∀ d ∈ toneDefsCX, d.valid = true →
      0 ≤ max d.tone_a_length_ms d.tone_b_length_ms) ∧
    toneDefA ∈ (process_audio_python_approach freqOracle 0 [] 0 toneDefsCX
      toneStateCX).fired ∧
    max toneDefA.tone_a_length_ms toneDefA.tone_b_length_ms <
      0 - toneStateCX.last_detect_time := by
  have hmem : toneDefA ∈ (process_audio_python_approach freqOracle 0 [] 0 toneDefsCX
      toneStateCX).fired := by
    rw [wakeCX_wake 0 toneStateCX rfl rfl (by norm_num : (-1000000 : ℤ) + 400 < 0) rfl]
    exact List.mem_singleton_self toneDefA
  exact ⟨toneDefsCX_nonneg, hmem,
    C10_shared_debounce freqOracle 0 [] 0 toneDefsCX toneStateCX toneDefsCX_nonneg
      toneDefA hmem⟩

theorem getD_set_ne {α : Type} (l : List α) (j i : Nat) (f d : α) (h : i ≠ j) :
    (l.set j f).getD i d = l.getD i d := by
  rw [List.getD_eq_getElem?_getD, List.getD_eq_getElem?_getD,
    List.getElem?_set_ne (fun he => h he.symm)]

theorem getD_set_self {α : Type} (l : List α) (i : Nat) (f d : α) (h : i < l.length) :
    (l.set i f).getD i d = f := by
  rw [List.getD_eq_getElem?_getD, List.getElem?_set_self h]
  rfl

theorem frameSeg_invalid (fr : AudioFrame) (p : Nat) (h : fr.valid = false) :
    frameSeg fr p = [] := by
  unfold frameSeg
  rw [if_neg (by simp [h])]

theorem frameSeg_drop_eq (fr : AudioFrame) (p : Nat) :
    frameSeg fr p = (frameSeg fr 0).drop p := by
  unfold frameSeg
  split
  · rw [List.drop_zero, ← List.map_drop]
  · simp

theorem frameSeg_length (fr : AudioFrame) (p : Nat) (hv : fr.valid = true)
    (hc : fr.sample_count ≤ fr.samples.length) :
    (frameSeg fr p).length = fr.sample_count - p := by
  unfold frameSeg
  rw [if_pos hv]
  simp [List.length_drop, List.length_take]
  omega

theorem jitterFlattenAux_set_outside (frames : List AudioFrame) (j : Nat)
    (f : AudioFrame) :
    ∀ (n ri pos : Nat), ri < JITTER_BUFFER_SIZE →
      (∀ k < n, (ri + k) % JITTER_BUFFER_SIZE ≠ j) →
      jitterFlattenAux (frames.set j f) ri pos n = jitterFlattenAux frames ri pos n := by
  intro n
  induction n with
  | zero => intro ri pos _ _; rfl
  | succ m ih =>
    intro ri pos hri h
    simp only [jitterFlattenAux]
    have h0 : ri ≠ j := by
      have := h 0 (Nat.succ_pos m)
      rwa [Nat.add_zero, Nat.mod_eq_of_lt hri] at this
    rw [getD_set_ne frames j ri f AudioFrame.blank h0]
    rw [ih ((ri + 1) % JITTER_BUFFER_SIZE) 0
      (Nat.mod_lt _ (by norm_num [JITTER_BUFFER_SIZE]))
      (fun k hk => by
        rw [Nat.mod_add_mod]
        have hne := h (k + 1) (by omega)
        have heq : ri + 1 + k = ri + (k + 1) := by omega
        rwa [heq])]

theorem jitterFlattenAux_last (frames : List AudioFrame) :
    ∀ (n ri pos : Nat), ri < JITTER_BUFFER_SIZE →
      jitterFlattenAux frames ri pos (n + 1) =
        jitterFlattenAux frames ri pos n ++
          frameSeg (frames.getD ((ri + n) % JITTER_BUFFER_SIZE) AudioFrame.blank)
            (if n = 0 then pos else 0) := by
  intro n
  induction n with
  | zero =>
    intro ri pos hri
    simp only [jitterFlattenAux, if_pos rfl, Nat.add_zero, Nat.mod_eq_of_lt hri]
    simp
  | succ m ih =>
    intro ri pos hri
    have hstep : jitterFlattenAux frames ri pos (m + 2) =
        frameSeg (frames.getD ri AudioFrame.blank) pos ++
          jitterFlattenAux frames ((ri + 1) % JITTER_BUFFER_SIZE) 0 (m + 1) := rfl
    rw [hstep, ih ((ri + 1) % JITTER_BUFFER_SIZE) 0
      (Nat.mod_lt _ (by norm_num [JITTER_BUFFER_SIZE]))]
    have hidx : ((ri + 1) % JITTER_BUFFER_SIZE + m) % JITTER_BUFFER_SIZE =
        (ri + (m + 1)) % JITTER_BUFFER_SIZE := by
      rw [Nat.mod_add_mod]
      congr 1
      omega
    rw [hidx]
    have hpad : (if m = 0 then (0 : Nat) else 0) = (if m + 1 = 0 then pos else 0) := by
      split <;> split <;> omega
    rw [hpad]
    have hstep2 : jitterFlattenAux frames ri pos (m + 1) =
        frameSeg (frames.getD ri AudioFrame.blank) pos ++
          jitterFlattenAux frames ((ri + 1) % JITTER_BUFFER_SIZE) 0 m := rfl
    rw [hstep2, List.append_assoc]

theorem jitterPush_not_full_eq (jb : JitterBuffer) (s : List ℚ)
    (hcnt : jb.frame_count < JITTER_BUFFER_SIZE) :
    (jitterPush jb s).1 =
      { jb with
          frames := jb.frames.set jb.write_index
            { samples := s ++ (jb.frames.getD jb.write_index AudioFrame.blank).samples.drop
                s.length,
              sample_count := s.length, valid := true },
          write_index := (jb.write_index + 1) % JITTER_BUFFER_SIZE,
          frame_count := jb.frame_count + 1 } ∧
    (jitterPush jb s).2 = 0 := by
  simp only [jitterPush]
  rw [if_neg (by omega)]
  exact ⟨rfl, rfl⟩

theorem jitterPush_full_eq (jb : JitterBuffer) (s : List ℚ)
    (hcnt : jb.frame_count = JITTER_BUFFER_SIZE) :
    (jitterPush jb s).1 =
      { jb with
          frames := jb.frames.set jb.write_index
            { samples := s ++ (jb.frames.getD jb.write_index AudioFrame.blank).samples.drop
                s.length,
              sample_count := s.length, valid := true },
          write_index := (jb.write_index + 1) % JITTER_BUFFER_SIZE,
          read_index := (jb.read_index + 1) % JITTER_BUFFER_SIZE,
          frame_count := jb.frame_count } ∧
    (jitterPush jb s).2 = 1 := by
  simp only [jitterPush]
  rw [if_pos hcnt.ge]
  have hc : jb.frame_count - 1 + 1 = jb.frame_count := by
    simp only [JITTER_BUFFER_SIZE] at hcnt
    omega
  refine ⟨?_, rfl⟩
  rw [hc]

theorem jitterFlatten_mk (fs : List AudioFrame) (w ri cnt pos : Nat) :
    jitterFlatten
      { frames := fs, write_index := w, read_index := ri, frame_count := cnt } pos =
      jitterFlattenAux fs ri pos cnt := rfl

theorem frameSeg_pushed (s : List ℚ) (tail : List ℚ) :
    frameSeg { samples := s ++ tail, sample_count := s.length, valid := true } 0 =
      s.map playbackSample := by
  unfold frameSeg
  rw [if_pos rfl, List.drop_zero, List.take_left' rfl]

theorem jitterPush_flatten_not_full (jb : JitterBuffer) (s : List ℚ) (pos : Nat)
    (hlen : jb.frames.length = JITTER_BUFFER_SIZE)
    (hri : jb.read_index < JITTER_BUFFER_SIZE)
    (hcnt : jb.frame_count < JITTER_BUFFER_SIZE)
    (hw : jb.write_index = (jb.read_index + jb.frame_count) % JITTER_BUFFER_SIZE)
    (hpos0 : jb.frame_count = 0 → pos = 0) :
    jitterFlatten (jitterPush jb s).1 pos =
      jitterFlatten jb pos ++ s.map playbackSample := by
  rw [(jitterPush_not_full_eq jb s hcnt).1, jitterFlatten_mk]
  rw [jitterFlattenAux_last _ jb.frame_count jb.read_index pos hri]
  rw [jitterFlattenAux_set_outside jb.frames jb.write_index _ jb.frame_count
    jb.read_index pos hri
    (by
      intro k hk
      rw [hw]
      simp only [JITTER_BUFFER_SIZE] at hri hcnt ⊢
      omega)]
  have hw8 : jb.write_index < jb.frames.length := by
    rw [hlen, hw]
    simp only [JITTER_BUFFER_SIZE]
    omega
  have hidx : (jb.read_index + jb.frame_count) % JITTER_BUFFER_SIZE =
      jb.write_index := hw.symm
  rw [hidx, getD_set_self _ _ _ _ hw8]
  have hpad : (if jb.frame_count = 0 then pos else 0) = 0 := by
    split
    · exact hpos0 ‹_›
    · rfl
  rw [hpad, frameSeg_pushed]
  rfl

theorem jitterPush_flatten_full (jb : JitterBuffer) (s : List ℚ) (pos : Nat)
    (hlen : jb.frames.length = JITTER_BUFFER_SIZE)
    (hri : jb.read_index < JITTER_BUFFER_SIZE)
    (hcnt : jb.frame_count = JITTER_BUFFER_SIZE)
    (hw : jb.write_index = (jb.read_index + jb.frame_count) % JITTER_BUFFER_SIZE) :
    jitterFlatten (jitterPush jb s).1 pos =
      jitterFlattenAux jb.frames ((jb.read_index + 1) % JITTER_BUFFER_SIZE) pos
        (JITTER_BUFFER_SIZE - 1) ++ s.map playbackSample := by
  rw [(jitterPush_full_eq jb s hcnt).1, jitterFlatten_mk]
  have hc2 : jb.frame_count = 7 + 1 := hcnt.trans rfl
  rw [hc2]
  rw [jitterFlattenAux_last _ 7 ((jb.read_index + 1) % JITTER_BUFFER_SIZE) pos
    (Nat.mod_lt _ (by norm_num [JITTER_BUFFER_SIZE]))]
  have hw8 : jb.write_index < jb.frames.length := by
    rw [hlen, hw]
    simp only [JITTER_BUFFER_SIZE]
    omega
  have hidx : ((jb.read_index + 1) % JITTER_BUFFER_SIZE + 7) % JITTER_BUFFER_SIZE =
      jb.write_index := by
    rw [hw, hcnt]
    simp only [JITTER_BUFFER_SIZE] at hri ⊢
    omega
  rw [hidx, getD_set_self _ _ _ _ hw8]
  rw [jitterFlattenAux_set_outside jb.frames jb.write_index _ 7
    ((jb.read_index + 1) % JITTER_BUFFER_SIZE) pos
    (Nat.mod_lt _ (by norm_num [JITTER_BUFFER_SIZE]))
    (by
      intro k hk
      rw [Nat.mod_add_mod, hw, hcnt]
      simp only [JITTER_BUFFER_SIZE] at hri ⊢
      omega)]
  rw [show (if 7 = 0 then pos else 0) = 0 from rfl, frameSeg_pushed]
  rfl

theorem pullLoop_full (fuel : Nat) (jb : JitterBuffer) (pos : Nat) (out : List ℚ)
    (h : 1024 ≤ out.length) : pullLoop (fuel + 1) jb pos out = (jb, pos, out) := by
  simp only [pullLoop]
  rw [if_pos h]

theorem pullLoop_empty (fuel : Nat) (jb : JitterBuffer) (pos : Nat) (out : List ℚ)
    (h1 : ¬ 1024 ≤ out.length) (h2 : jb.frame_count = 0) :
    pullLoop (fuel + 1) jb pos out =
      (jb, pos, out ++ List.replicate (1024 - out.length) 0) := by
  simp only [pullLoop]
  rw [if_neg h1, if_neg (by omega)]

theorem pullLoop_invalid (fuel : Nat) (jb : JitterBuffer) (pos : Nat) (out : List ℚ)
    (h1 : ¬ 1024 ≤ out.length) (h2 : 0 < jb.frame_count)
    (h3 : (jb.frames.getD jb.read_index AudioFrame.blank).valid = false) :
    pullLoop (fuel + 1) jb pos out =
      pullLoop fuel
        { jb with read_index := (jb.read_index + 1) % JITTER_BUFFER_SIZE,
                  frame_count := jb.frame_count - 1 } 0 out := by
  simp only [pullLoop]
  simp only [List.getD_eq_getElem?_getD] at h3 ⊢
  rw [if_neg h1, if_pos h2, if_neg (by simp [h3])]

theorem pullLoop_valid (fuel : Nat) (jb : JitterBuffer) (pos : Nat) (out : List ℚ)
    (h1 : ¬ 1024 ≤ out.length) (h2 : 0 < jb.frame_count)
    (h3 : (jb.frames.getD jb.read_index AudioFrame.blank).valid = true) :
    pullLoop (fuel + 1) jb pos out =
      (if (jb.frames.getD jb.read_index AudioFrame.blank).sample_count ≤
          pos + min (1024 - out.length)
            ((jb.frames.getD jb.read_index AudioFrame.blank).sample_count - pos) then
        pullLoop fuel
          { jb with frames := jb.frames.set jb.read_index { jb.frames.getD jb.read_index AudioFrame.blank with valid := false },
                    read_index := (jb.read_index + 1) % JITTER_BUFFER_SIZE,
                    frame_count := jb.frame_count - 1 }
          0
          (out ++ (((jb.frames.getD jb.read_index AudioFrame.blank).samples.drop pos).take
            (min (1024 - out.length)
              ((jb.frames.getD jb.read_index AudioFrame.blank).sample_count - pos))).map
            playbackSample)
      else
        pullLoop fuel jb
          (pos + min (1024 - out.length)
            ((jb.frames.getD jb.read_index AudioFrame.blank).sample_count - pos))
          (out ++ (((jb.frames.getD jb.read_index AudioFrame.blank).samples.drop pos).take
            (min (1024 - out.length)
              ((jb.frames.getD jb.read_index AudioFrame.blank).sample_count - pos))).map
            playbackSample)) := by
  simp only [pullLoop]
  simp only [List.getD_eq_getElem?_getD] at h3 ⊢
  rw [if_neg h1, if_pos h2, if_pos h3]

theorem pullLoop_spec : ∀ (cnt fuel : Nat) (jb : JitterBuffer) (pos : Nat) (out : List ℚ),
    jb.frame_count = cnt → cnt + 2 ≤ fuel → JitterWF jb pos → out.length ≤ 1024 →
    (pullLoop fuel jb pos out).2.2 =
      out ++ (jitterFlatten jb pos).take (1024 - out.length) ++
        List.replicate (1024 - out.length - (jitterFlatten jb pos).length) 0 ∧
    jitterFlatten (pullLoop fuel jb pos out).1 (pullLoop fuel jb pos out).2.1 =
      (jitterFlatten jb pos).drop (1024 - out.length) := by
  intro cnt
  induction cnt using Nat.strong_induction_on with
  | _ cnt ih =>
  intro fuel jb pos out hcnt hfuel hwf hout
  obtain ⟨hlen, hri, hcle, hsb, hposle⟩ := hwf
  obtain ⟨fl, rfl⟩ : ∃ f, fuel = f + 1 := ⟨fuel - 1, by omega⟩
  by_cases h1 : 1024 ≤ out.length
  · rw [pullLoop_full fl jb pos out h1]
    have h0 : 1024 - out.length = 0 := by omega
    rw [h0]
    constructor
    · simp
    · show jitterFlatten jb pos = (jitterFlatten jb pos).drop 0
      simp
  · by_cases h2 : 0 < jb.frame_count
    · obtain ⟨fr, hfr⟩ : ∃ fr, jb.frames.getD jb.read_index AudioFrame.blank = fr :=
        ⟨_, rfl⟩
      rw [hfr] at hposle
      have hrilt : jb.read_index < jb.frames.length := by rw [hlen]; exact hri
      have hfrmem : fr ∈ jb.frames := by
        rw [← hfr, List.getD_eq_getElem?_getD, List.getElem?_eq_getElem hrilt,
          Option.getD_some]
        exact List.getElem_mem hrilt
      have hsc : fr.sample_count ≤ fr.samples.length := hsb fr hfrmem
      have hcnt1 : jb.frame_count - 1 + 1 = jb.frame_count := by omega
      obtain ⟨rest, hrest⟩ : ∃ r, jitterFlattenAux jb.frames
          ((jb.read_index + 1) % JITTER_BUFFER_SIZE) 0 (jb.frame_count - 1) = r :=
        ⟨_, rfl⟩
      have hflat : ∀ p, jitterFlattenAux jb.frames jb.read_index p jb.frame_count =
          frameSeg fr p ++ rest := by
        intro p
        conv_lhs => rw [← hcnt1]
        rw [show jitterFlattenAux jb.frames jb.read_index p (jb.frame_count - 1 + 1) =
          frameSeg (jb.frames.getD jb.read_index AudioFrame.blank) p ++
            jitterFlattenAux jb.frames ((jb.read_index + 1) % JITTER_BUFFER_SIZE) 0
              (jb.frame_count - 1) from rfl, hfr, hrest]
      have hflat2 : jitterFlatten jb pos = frameSeg fr pos ++ rest := hflat pos
      by_cases h3 : fr.valid = true
      · -- valid head frame
        have hseglen : ∀ p, (frameSeg fr p).length = fr.sample_count - p :=
          fun p => frameSeg_length fr p h3 hsc
        have hposc : pos ≤ fr.sample_count := hposle h3
        have hcopied : ∀ t, t ≤ fr.sample_count - pos →
            ((fr.samples.drop pos).take t).map playbackSample =
              (frameSeg fr pos).take t := by
          intro t ht
          unfold frameSeg
          rw [if_pos h3, List.drop_take, ← List.map_take, List.take_take]
          congr 2
          omega
        rw [pullLoop_valid fl jb pos out h1 h2 (by rw [hfr]; exact h3), hfr]
        by_cases h4 : fr.sample_count ≤
            pos + min (1024 - out.length) (fr.sample_count - pos)
        · -- the head frame is exhausted: it is invalidated and read advances
          rw [if_pos h4]
          have htc : min (1024 - out.length) (fr.sample_count - pos) =
              fr.sample_count - pos := by omega
          rw [htc, hcopied (fr.sample_count - pos) le_rfl,
            List.take_all_of_le (le_of_eq (hseglen pos))]
          have hwf2 : JitterWF
              { jb with frames := jb.frames.set jb.read_index { fr with valid := false },
                        read_index := (jb.read_index + 1) % JITTER_BUFFER_SIZE,
                        frame_count := jb.frame_count - 1 } 0 := by
            refine ⟨?_, ?_, ?_, ?_, ?_⟩
            · show (jb.frames.set jb.read_index { fr with valid := false }).length = _
              rw [List.length_set]
              exact hlen
            · exact Nat.mod_lt _ (by norm_num [JITTER_BUFFER_SIZE])
            · show jb.frame_count - 1 ≤ _
              omega
            · intro fr2 hm
              rcases List.mem_or_eq_of_mem_set hm with h | h
              · exact hsb fr2 h
              · rw [h]
                exact hsc
            · intro _
              exact Nat.zero_le _
          have hflat3 : jitterFlatten
              { jb with frames := jb.frames.set jb.read_index { fr with valid := false },
                        read_index := (jb.read_index + 1) % JITTER_BUFFER_SIZE,
                        frame_count := jb.frame_count - 1 } 0 = rest := by
            show jitterFlattenAux (jb.frames.set jb.read_index { fr with valid := false })
              ((jb.read_index + 1) % JITTER_BUFFER_SIZE) 0 (jb.frame_count - 1) = rest
            rw [jitterFlattenAux_set_outside jb.frames jb.read_index
              { fr with valid := false } (jb.frame_count - 1)
              ((jb.read_index + 1) % JITTER_BUFFER_SIZE) 0
              (Nat.mod_lt _ (by norm_num [JITTER_BUFFER_SIZE]))
              (fun k hk => by
                rw [Nat.mod_add_mod]
                simp only [JITTER_BUFFER_SIZE] at hri hcle ⊢
                omega)]
            exact hrest
          have hspec := ih (jb.frame_count - 1) (by omega) fl
            { jb with frames := jb.frames.set jb.read_index { fr with valid := false },
                      read_index := (jb.read_index + 1) % JITTER_BUFFER_SIZE,
                      frame_count := jb.frame_count - 1 } 0
            (out ++ frameSeg fr pos) rfl (by omega) hwf2
            (by rw [List.length_append, hseglen pos]; omega)
          rw [hflat3] at hspec
          have hlenout1 : (out ++ frameSeg fr pos).length =
              out.length + (fr.sample_count - pos) := by
            rw [List.length_append, hseglen pos]
          rw [hlenout1] at hspec
          have htake : (frameSeg fr pos ++ rest).take (1024 - out.length) =
              frameSeg fr pos ++ rest.take (1024 - out.length - (fr.sample_count - pos)) := by
            rw [List.take_append_eq_append_take,
              List.take_all_of_le (by rw [hseglen pos]; omega), hseglen pos]
          constructor
          · rw [hspec.1, hflat2, htake, List.length_append, hseglen pos]
            rw [show 1024 - (out.length + (fr.sample_count - pos)) =
              1024 - out.length - (fr.sample_count - pos) from by omega]
            rw [show 1024 - out.length - ((fr.sample_count - pos) + rest.length) =
              1024 - out.length - (fr.sample_count - pos) - rest.length from by omega]
            simp [List.append_assoc]
          · have hsegnil : (frameSeg fr pos).drop (1024 - out.length) = [] :=
              List.drop_eq_nil_of_le (by rw [hseglen pos]; omega)
            rw [hspec.2, hflat2, List.drop_append_eq_append_drop, hsegnil,
              List.nil_append, hseglen pos]
            congr 1
            omega
        · -- the output chunk fills up inside the head frame: read offset advances
          rw [if_neg h4]
          have htc : min (1024 - out.length) (fr.sample_count - pos) =
              1024 - out.length := by omega
          rw [htc]
          obtain ⟨fl2, rfl⟩ : ∃ f2, fl = f2 + 1 := ⟨fl - 1, by omega⟩
          have hfull : 1024 ≤ (out ++
              ((fr.samples.drop pos).take (1024 - out.length)).map playbackSample).length := by
            rw [List.length_append, List.length_map, List.length_take, List.length_drop]
            omega
          rw [pullLoop_full fl2 jb (pos + (1024 - out.length))
            (out ++ ((fr.samples.drop pos).take (1024 - out.length)).map playbackSample)
            hfull]
          have hseglen : ∀ p, (frameSeg fr p).length = fr.sample_count - p :=
            fun p => frameSeg_length fr p h3 hsc
          constructor
          · show out ++ ((fr.samples.drop pos).take (1024 - out.length)).map playbackSample =
              out ++ (jitterFlatten jb pos).take (1024 - out.length) ++
                List.replicate (1024 - out.length - (jitterFlatten jb pos).length) 0
            rw [hcopied (1024 - out.length) (by omega), hflat2,
              List.take_append_eq_append_take, hseglen pos,
              show 1024 - out.length - (fr.sample_count - pos) = 0 from by omega,
              show (1024 : Nat) - out.length -
                (frameSeg fr pos ++ rest).length = 0 from by
                  rw [List.length_append, hseglen pos]; omega]
            simp [List.append_assoc]
          · show jitterFlatten jb (pos + (1024 - out.length)) =
              (jitterFlatten jb pos).drop (1024 - out.length)
            have hflatP : jitterFlatten jb (pos + (1024 - out.length)) =
                frameSeg fr (pos + (1024 - out.length)) ++ rest := hflat _
            rw [hflatP, hflat2, List.drop_append_eq_append_drop, hseglen pos,
              show 1024 - out.length - (fr.sample_count - pos) = 0 from by omega,
              List.drop_zero]
            congr 1
            rw [frameSeg_drop_eq fr (pos + (1024 - out.length)), frameSeg_drop_eq fr pos,
              List.drop_drop]
      · -- invalid head frame: it is skipped without producing output
        have h3f : fr.valid = false := by simpa using h3
        rw [pullLoop_invalid fl jb pos out h1 h2 (by rw [hfr]; exact h3f)]
        have hwf2 : JitterWF
            { jb with read_index := (jb.read_index + 1) % JITTER_BUFFER_SIZE,
                      frame_count := jb.frame_count - 1 } 0 := by
          refine ⟨hlen, Nat.mod_lt _ (by norm_num [JITTER_BUFFER_SIZE]), ?_, hsb, ?_⟩
          · show jb.frame_count - 1 ≤ _
            omega
          · intro _
            exact Nat.zero_le _
        have hspec := ih (jb.frame_count - 1) (by omega) fl
          { jb with read_index := (jb.read_index + 1) % JITTER_BUFFER_SIZE,
                    frame_count := jb.frame_count - 1 } 0 out rfl (by omega) hwf2 hout
        have hflat3 : jitterFlatten
            { jb with read_index := (jb.read_index + 1) % JITTER_BUFFER_SIZE,
                      frame_count := jb.frame_count - 1 } 0 = rest := hrest
        rw [hflat3] at hspec
        rw [show jitterFlatten jb pos = rest from by
          rw [hflat2, frameSeg_invalid fr pos h3f]; simp]
        exact hspec
    · -- empty buffer: the chunk is padded with silence
      have hz : jb.frame_count = 0 := by omega
      rw [pullLoop_empty fl jb pos out h1 hz]
      have hfe : jitterFlatten jb pos = [] := by
        show jitterFlattenAux jb.frames jb.read_index pos jb.frame_count = []
        rw [hz]
        rfl
      constructor
      · rw [hfe]
        simp
      · show jitterFlatten jb pos = (jitterFlatten jb pos).drop (1024 - out.length)
        rw [hfe]
        simp

theorem c7fill_eq : c7afterFill = c7fillState := rfl

theorem c7pull1_eq :
    c7pull1 = (List.replicate 1024 (playbackSample (1 / 5)), c7afterFill, 1024) := rfl

theorem c7overflow_eq :
    c7overflow =
      ({ frames := [{ samples := c7frame ++ (c7slot c7big).samples.drop c7frame.length,
                      sample_count := c7frame.length, valid := true },
                    c7slot c7marked, c7slot c7frame, c7slot c7frame, c7slot c7frame,
                    c7slot c7frame, c7slot c7frame, c7slot c7frame],
         write_index := 1, read_index := 1, frame_count := 8 }, 1) := rfl

theorem c7pull1_out : c7pull1.1 = List.replicate 1024 (playbackSample (1 / 5)) := rfl

theorem c7overflow_drop : c7overflow.2 = 1 := rfl

theorem c7pull2_out :
    c7pull2.1 = List.replicate 903 (playbackSample (1 / 5)) ++
      List.replicate 121 (0 : ℚ) := rfl

theorem c7pull2_count : c7pull2.2.1.frame_count = 0 := rfl

theorem playbackSample_fifth : playbackSample (1 / 5) = 3 / 10 := by
  unfold playbackSample clipUnit
  norm_num [min_def, max_def]

/-- C7: amended jitter-buffer ordering.  Under the buffer invariants, one
output pull returns exactly the in-order remaining playable content (invalid
frames contribute nothing, each sample is gained by 1.5 and saturated to
[-1, 1]) truncated to 1024 samples and padded with silence on underflow,
leaving the rest of the content; a push onto a non-full buffer appends the
pushed samples to the playable content; a push onto a full buffer drops the
oldest frame but keeps the current read offset, which then applies to the
surviving successor frame, so the successor's first `pos` stored samples are
also lost even though that frame was not dropped. -/
theorem C7_jitter_order (jb : JitterBuffer) (pos : Nat) (s : List ℚ)
    (hwf : JitterWF jb pos)
    (hw : jb.write_index = (jb.read_index + jb.frame_count) % JITTER_BUFFER_SIZE)
    (hpos0 : jb.frame_count = 0 → pos = 0) :
    ((audio_output_build_chunk jb pos).1 =
        (jitterFlatten jb pos).take 1024 ++
          List.replicate (1024 - (jitterFlatten jb pos).length) 0 ∧
      jitterFlatten (audio_output_build_chunk jb pos).2.1
          (audio_output_build_chunk jb pos).2.2 =
        (jitterFlatten jb pos).drop 1024) ∧
    (jb.frame_count < JITTER_BUFFER_SIZE →
      jitterFlatten (jitterPush jb s).1 pos =
        jitterFlatten jb pos ++ s.map playbackSample) ∧
    (jb.frame_count = JITTER_BUFFER_SIZE →
      jitterFlatten (jitterPush jb s).1 pos =
        jitterFlattenAux jb.frames ((jb.read_index + 1) % JITTER_BUFFER_SIZE) pos
          (JITTER_BUFFER_SIZE - 1) ++ s.map playbackSample) := by
  have h := pullLoop_spec jb.frame_count (jb.frame_count + 3) jb pos [] rfl
    (by omega) hwf (by simp)
  simp only [List.length_nil, Nat.sub_zero, List.nil_append] at h
  obtain ⟨hlen, hri, -, -, -⟩ := hwf
  exact ⟨⟨h.1, h.2⟩,
    fun hc => jitterPush_flatten_not_full jb s pos hlen hri hc hw hpos0,
    fun hc => jitterPush_flatten_full jb s pos hlen hri hc hw⟩

theorem c7emptyWF : JitterWF JitterBuffer.empty 0 :=
  ⟨rfl, by decide, by decide,
   fun fr hfr => by
     rw [List.eq_of_mem_replicate hfr]
     exact Nat.zero_le _,
   fun _ => Nat.zero_le _⟩

theorem C7_jitter_order_witness :
    JitterWF JitterBuffer.empty 0 ∧
    JitterBuffer.empty.write_index =
      (JitterBuffer.empty.read_index + JitterBuffer.empty.frame_count) %
        JITTER_BUFFER_SIZE ∧
    JitterBuffer.empty.frame_count < JITTER_BUFFER_SIZE ∧
    (audio_output_build_chunk JitterBuffer.empty 0).1 =
      (jitterFlatten JitterBuffer.empty 0).take 1024 ++
        List.replicate (1024 - (jitterFlatten JitterBuffer.empty 0).length) 0 ∧
    jitterFlatten (jitterPush JitterBuffer.empty [1]).1 0 =
      jitterFlatten JitterBuffer.empty 0 ++ [1].map playbackSample :=
  ⟨c7emptyWF, rfl, by decide,
    (C7_jitter_order JitterBuffer.empty 0 [1] c7emptyWF rfl (fun _ => rfl)).1.1,
    (C7_jitter_order JitterBuffer.empty 0 [1] c7emptyWF rfl (fun _ => rfl)).2.1
      (by decide)⟩

/-- C7 counterexample to the original claim: in a concrete run (push a
1500-sample frame and seven 129-sample frames, pull one 1024-sample chunk,
then push one more frame so the full buffer drops its oldest frame), exactly
one frame is dropped on overflow, yet the marker sample 1/10 — pushed at the
head of the second frame, which is never dropped — never appears (gained, as
3/20) in any pulled output, and the buffer finishes empty: pull does not
return all non-dropped pushed samples. -/
theorem C7_counterexample :
    (1 / 10 : ℚ) ∈ c7marked ∧
    c7overflow.2 = 1 ∧
    playbackSample (1 / 10) = 3 / 20 ∧
    (3 / 20 : ℚ) ∉ c7pull1.1 ∧
    (3 / 20 : ℚ) ∉ c7pull2.1 ∧
    c7pull2.2.1.frame_count = 0 := by
  refine ⟨?_, c7overflow_drop, ?_, ?_, ?_, c7pull2_count⟩
  · show (1 / 10 : ℚ) ∈ 1 / 10 :: List.replicate 128 (1 / 5)
    exact List.mem_cons_self _ _
  · unfold playbackSample clipUnit
    norm_num [min_def, max_def]
  · rw [c7pull1_out, playbackSample_fifth]
    simp only [List.mem_replicate]
    norm_num
  · rw [c7pull2_out, playbackSample_fifth]
    simp only [List.mem_append, List.mem_replicate]
    norm_num
